import Mathlib

/-!
# Verification of the grocery voice-assistant core

A shallow embedding, in Lean, of the fuzzy product-matching layer
(`src/lib/fuzzySearch.ts`, class `ProductFuzzySearch`), the cart/order
context operations (`src/context/AppContext.tsx`) and the voice-assistant
client tools (`src/components/VoiceAssistant.tsx`).

Modelling conventions:
* JS strings are lists of characters (`Str`); `toLowerCase`, `trim`,
  `includes`, `startsWith`, `endsWith` and `split(' ')` are defined over the
  ASCII fragment the application exercises.
* JS numbers carrying prices/amounts are rationals; quantities are integers
  after the source applies `Math.floor`.  The value `NaN` produced by
  `Number(x)` on a non-numeric argument is modelled by `Option.none`.
* The third-party Fuse.js engine is external to the repository; its scored
  search is a parameter (`Oracle`) of every definition that consults it, so
  theorems about the strategy cascade hold for every possible engine, and
  concrete evaluations use an explicit oracle.
* The storage collaborator (supabase) is a record of tables (`DB`); each
  query/mutation of the source is translated to the corresponding list
  operation, and storage failures that the source handles are injected
  through a `FailSpec` of booleans (a set flag makes the corresponding
  storage call fail exactly as the supabase client would report it).
-/

namespace Grocery

/-- JS strings, modelled as lists of characters. -/
abbrev Str := List Char

/-- ASCII whitespace: the fragment of the JS `\s` class the app exercises. -/
def isSpace (c : Char) : Bool := c == ' ' || c == '\t' || c == '\n' || c == '\r'

/-- `String.prototype.toLowerCase` (ASCII range). -/
def toLower (s : Str) : Str := s.map Char.toLower

/-- `String.prototype.trim`: drop leading and trailing whitespace. -/
def trimStr (s : Str) : Str := ((s.dropWhile isSpace).reverse.dropWhile isSpace).reverse

/-- `a.startsWith(b)`. -/
def strStartsWith : Str → Str → Bool
  | _, [] => true
  | [], _ :: _ => false
  | c :: cs, d :: ds => c == d && strStartsWith cs ds

/-- `hay.includes(needle)`: substring containment. -/
def strContains (hay needle : Str) : Bool :=
  match hay with
  | [] => needle.isEmpty
  | c :: cs => strStartsWith (c :: cs) needle || strContains cs needle

/-- `a.endsWith(b)`. -/
def strEndsWith (s suffix : Str) : Bool := strStartsWith s.reverse suffix.reverse

/-- `s.split(' ')` with JS semantics (empty segments are kept). -/
def splitSp : Str → List Str
  | [] => [[]]
  | c :: cs =>
    if c == ' ' then [] :: splitSp cs
    else
      match splitSp cs with
      | [] => [[c]]
      | w :: ws => (c :: w) :: ws

/-- A `categories` row, as joined onto products. -/
structure Category where
  id : Nat
  name : Str
deriving DecidableEq

/-- A `products` row (with its joined category).  Timestamps and image
references, which no specified behaviour reads, are omitted. -/
structure Product where
  id : Nat
  name : Str
  description : Option Str
  price : ℚ
  stock_quantity : Nat
  unit : Str
  category : Option Category
deriving DecidableEq

/-- The confidence tiers of `ProductFuzzySearch.findProduct`. -/
inductive Confidence
  | exact
  | high
  | medium
  | low
  | none
deriving DecidableEq

/-- The `matchType` diagnostic tag of `findProduct` (the source uses strings;
the fuzzy tag carries the score interpolated into `fuzzy_match_score_...`). -/
inductive MatchTag
  | emptyQuery
  | exactMatch
  | singularPluralMatch
  | cleanedExactMatch
  | fuzzyMatch (score : ℚ)
  | wordOverlapMatch
  | noMatch
deriving DecidableEq

/-- The value object returned by `findProduct`. -/
structure MatchResult where
  product : Option Product
  confidence : Confidence
  alternatives : List Product
  matchType : MatchTag
deriving DecidableEq

/-- The Fuse.js engine, external to the repository: given a (trimmed) query
and a result limit it returns scored products, best (lowest score) first. -/
abbrev Oracle := Str → Nat → List (Product × ℚ)

/-- An engine returning no results; used to evaluate the cascade on concrete
inputs whose outcome the claims fix before (or without) the fuzzy step. -/
def oracle0 : Oracle := fun _ _ => []

/-- `ProductFuzzySearch.search`: rejects empty/short queries, then delegates
to the Fuse.js engine on the trimmed query. -/
def searchFn (o : Oracle) (query : Str) (limit : Nat) : List (Product × ℚ) :=
  if (trimStr query).length < 2 then [] else o (trimStr query) limit

/-- The descriptive prefixes stripped by strategy 3, in alternation order. -/
def decorFront : List Str :=
  ["fresh".data, "organic".data, "premium".data, "quality".data,
   "best".data, "top".data, "local".data, "farm".data]

/-- The descriptive suffixes stripped by strategy 3, in alternation order. -/
def decorBack : List Str :=
  ["fruit".data, "vegetable".data, "item".data, "product".data, "food".data]

/-- `replace(/^(fresh|organic|premium|quality|best|top|local|farm)\s+/i, '')`:
remove one leading decoration word together with the whitespace run after it
(the query is already lower-cased when this runs). -/
def stripFront (s : Str) : Str :=
  match decorFront.find? (fun w =>
      strStartsWith s w &&
        (match s.drop w.length with
         | c :: _ => isSpace c
         | [] => false)) with
  | some w => (s.drop w.length).dropWhile isSpace
  | Option.none => s

/-- `replace(/\s+(fruit|vegetable|item|product|food)$/i, '')`: remove one
trailing decoration word together with the whitespace run before it. -/
def stripBack (s : Str) : Str :=
  let r := s.reverse
  match decorBack.find? (fun w =>
      strStartsWith r w.reverse &&
        (match r.drop w.length with
         | c :: _ => isSpace c
         | [] => false)) with
  | some w => ((r.drop w.length).dropWhile isSpace).reverse
  | Option.none => s

/-- Strategy 3's cleaned query: strip a prefix, a suffix, then `trim()`. -/
def stripDecor (s : Str) : Str := trimStr (stripBack (stripFront s))

/-- Strategy 5's per-product predicate: some query word of length ≥ 3 is
contained in the product name (or vice versa) or shares a 3-character
prefix with some product-name word. -/
def overlapPred (normalized : Str) (p : Product) : Bool :=
  let productName := toLower p.name
  (splitSp normalized).any (fun word =>
    3 ≤ word.length &&
      (strContains productName word || strContains word productName ||
        (splitSp productName).any (fun pw =>
          strStartsWith pw (word.take 3) || strStartsWith word (pw.take 3))))

/-- Keep the first occurrence of each product id (the source's
`findIndex`-based dedup in `getSuggestions`). -/
def dedupeById (seen : List Nat) : List Product → List Product
  | [] => []
  | p :: rest =>
    if seen.contains p.id then dedupeById seen rest
    else p :: dedupeById (p.id :: seen) rest

/-- `ProductFuzzySearch.getSuggestions` (default limit 3): fuzzy results for
the query's first word, unioned with products sharing its first two
characters as a name(-token) prefix, deduplicated by id. -/
def getSuggestions (o : Oracle) (searchName : Str) (products : List Product) : List Product :=
  match splitSp searchName with
  | [] => []
  | firstWord :: _ =>
    if firstWord.length < 2 then []
    else
      let fromEngine := (searchFn o firstWord 6).map (·.1)
      let letterSuggestions := products.filter (fun p =>
        strStartsWith (toLower p.name) (firstWord.take 2) ||
          (splitSp (toLower p.name)).any (fun w => strStartsWith w (firstWord.take 2)))
      (dedupeById [] (fromEngine ++ letterSuggestions)).take 3

/-- `ProductFuzzySearch.findProduct`: the ordered cascade of matching
strategies, translated clause by clause from the source. -/
def findProduct (o : Oracle) (searchName : Str) (products : List Product) : MatchResult :=
  if searchName.isEmpty || (trimStr searchName).isEmpty then
    ⟨Option.none, Confidence.none, [], .emptyQuery⟩
  else
    let normalized := trimStr (toLower searchName)
    match products.find? (fun p => toLower p.name == normalized) with
    | some p => ⟨some p, .exact, [], .exactMatch⟩
    | Option.none =>
      let singular := if strEndsWith normalized ['s'] then normalized.dropLast else normalized
      let plural := if strEndsWith normalized ['s'] then normalized else normalized ++ ['s']
      match products.find? (fun p => toLower p.name == singular || toLower p.name == plural) with
      | some p => ⟨some p, .exact, [], .singularPluralMatch⟩
      | Option.none =>
        let cleaned := stripDecor normalized
        match (if cleaned ≠ normalized ∧ 2 ≤ cleaned.length then
                 products.find? (fun p => toLower p.name == cleaned ||
                   toLower p.name ==
                     (if strEndsWith cleaned ['s'] then cleaned.dropLast else cleaned ++ ['s']))
               else Option.none) with
        | some p => ⟨some p, .high, [], .cleanedExactMatch⟩
        | Option.none =>
          match searchFn o normalized 5 with
          | best :: rest =>
            ⟨some best.1,
             if best.2 ≤ 1/10 then .high else if best.2 ≤ 3/10 then .medium else .low,
             ((rest.take 3).filter (fun r => r.2 ≤ 1/2)).map (·.1),
             .fuzzyMatch best.2⟩
          | [] =>
            match products.filter (overlapPred normalized) with
            | p :: ps => ⟨some p, .low, ps.take 3, .wordOverlapMatch⟩
            | [] => ⟨Option.none, Confidence.none, getSuggestions o normalized products, .noMatch⟩

/-- `VoiceAssistant.findProductByName`: returns `null` on a falsy query,
otherwise delegates to the matcher. -/
def findProductByName (o : Oracle) (searchName : Str) (products : List Product) : Option MatchResult :=
  if searchName.isEmpty then Option.none else some (findProduct o searchName products)

/-! ## The storage collaborator and application state -/

/-- A `cart_items` row. -/
structure CartRow where
  id : Nat
  user_id : Nat
  product_id : Nat
  quantity : ℤ
deriving DecidableEq

/-- An `orders` row. -/
structure OrderRow where
  id : Nat
  user_id : Nat
  total_amount : ℚ
  delivery_address : Str
  customer_name : Str
  customer_phone : Str
  status : Str
deriving DecidableEq

/-- An `order_items` row: the frozen (product, quantity, price) snapshot. -/
structure OrderItemRow where
  order_id : Nat
  product_id : Nat
  quantity : ℤ
  price : ℚ
deriving DecidableEq

/-- The storage collaborator's tables. -/
structure DB where
  productsTable : List Product
  cart : List CartRow
  orders : List OrderRow
  order_items : List OrderItemRow
deriving DecidableEq

/-- A cart item as the app sees it after the `product:products(...)` join
(the join is `null` when the referenced product row is gone). -/
structure CartItemFull where
  id : Nat
  user_id : Nat
  product_id : Nat
  quantity : ℤ
  product : Option Product
deriving DecidableEq

/-- Perform the `product:products(*)` join for one cart row. -/
def joinRow (db : DB) (r : CartRow) : CartItemFull :=
  ⟨r.id, r.user_id, r.product_id, r.quantity,
    db.productsTable.find? (fun p => p.id == r.product_id)⟩

/-- `item.product?.price || 0`. -/
def itemPrice (it : CartItemFull) : ℚ :=
  match it.product with
  | some p => p.price
  | Option.none => 0

/-- In-memory application state: the storage tables, the signed-in user, the
catalog snapshot (`products`) and the cart mirror (`cartItems`) held in
React state by `AppContext`. -/
structure App where
  db : DB
  user : Option Nat
  products : List Product
  cartItems : List CartItemFull
deriving DecidableEq

/-- Which storage calls fail (the supabase client reports an error instead
of throwing; `fetchCart` makes the `cart_items` select of
`fetchLatestCartState` fail). -/
structure FailSpec where
  fetchCart : Bool
  insertOrder : Bool
  insertOrderItems : Bool
  insertCartItem : Bool
  updateCartItem : Bool
deriving DecidableEq

/-- No storage failures. -/
def noFail : FailSpec := ⟨false, false, false, false, false⟩

/-- `AppContext.refreshCart`: reload the signed-in user's cart mirror from
storage (a no-op when signed out). -/
def refreshCart (s : App) : App :=
  match s.user with
  | Option.none => s
  | some uid =>
    { s with cartItems := (s.db.cart.filter (fun r => r.user_id == uid)).map (joinRow s.db) }

/-- `AppContext.removeFromCart`: delete the user's cart row(s) for the
product, then refresh the mirror. -/
def removeFromCartCtx (s : App) (pid : Nat) : App :=
  match s.user with
  | Option.none => s
  | some uid =>
    refreshCart
      { s with db :=
          { s.db with cart := s.db.cart.filter (fun r => !(r.user_id == uid && r.product_id == pid)) } }

/-- `AppContext.updateCartQuantity`: non-positive quantities collapse to
removal, otherwise set the absolute quantity on the user's row(s) for the
product (an update error is reported and swallowed without refreshing). -/
def updateCartQuantityCtx (fail : FailSpec) (s : App) (pid : Nat) (q : ℤ) : App :=
  match s.user with
  | Option.none => s
  | some uid =>
    if q ≤ 0 then removeFromCartCtx s pid
    else if fail.updateCartItem then s
    else
      refreshCart
        { s with db :=
            { s.db with cart := s.db.cart.map (fun r =>
                if r.user_id == uid && r.product_id == pid then { r with quantity := q } else r) } }

/-- Fresh row id for an insert into `cart_items` (storage assigns ids; we
model them as one more than the current maximum). -/
def freshCartId (db : DB) : Nat := (db.cart.map (fun r => r.id)).foldr max 0 + 1

/-- `AppContext.addToCart`: if the in-memory mirror already has the product,
delegate to `updateCartQuantity` with the incremented quantity, else insert
a new row (an insert error is reported and swallowed without refreshing). -/
def addToCartCtx (fail : FailSpec) (s : App) (pid : Nat) (q : ℤ) : App :=
  match s.user with
  | Option.none => s
  | some uid =>
    match s.cartItems.find? (fun it => it.product_id == pid) with
    | some existing => updateCartQuantityCtx fail s pid (existing.quantity + q)
    | Option.none =>
      if fail.insertCartItem then s
      else
        refreshCart
          { s with db := { s.db with cart := s.db.cart ++ [⟨freshCartId s.db, uid, pid, q⟩] } }

/-- Fresh row id for an insert into `orders`. -/
def freshOrderId (db : DB) : Nat := (db.orders.map (fun r => r.id)).foldr max 0 + 1

/-- Outcome of the order placement workflow (`AppContext.placeOrder`):
`invalid` is the no-user/no-items early return, the two `Failed` outcomes
are the rethrown storage errors, and `crashed` is the `TypeError` raised by
`item.product.id` when a passed item has no joined product (which escapes
after the order row was already inserted). -/
inductive POResult
  | invalid
  | orderInsertFailed
  | crashed
  | itemsInsertFailed
  | placed (oid : Nat)
deriving DecidableEq

/-- `AppContext.placeOrder` (the four-argument workflow taking the
definitive item list): recompute the total from the passed items, insert the
order, insert one order-item row per item, rolling the order back if that
insert fails, then clear the user's cart and refresh. -/
def placeOrderCtx (fail : FailSpec) (s : App) (addr nm ph : Str)
    (items : List CartItemFull) : App × POResult :=
  match s.user with
  | Option.none => (s, .invalid)
  | some uid =>
    if items.isEmpty then (s, .invalid)
    else
      let totalAmount := items.foldl (fun t it => t + itemPrice it * (it.quantity : ℚ)) 0
      if fail.insertOrder then (s, .orderInsertFailed)
      else
        let oid := freshOrderId s.db
        let s1 := { s with db :=
          { s.db with orders :=
              s.db.orders ++ [⟨oid, uid, totalAmount, addr, nm, ph, "Pending".data⟩] } }
        if items.any (fun it => it.product.isNone) then (s1, .crashed)
        else
          let rows := items.map (fun it =>
            OrderItemRow.mk oid
              (match it.product with | some p => p.id | Option.none => 0)
              it.quantity (itemPrice it))
          if fail.insertOrderItems then
            ({ s1 with db :=
                { s1.db with orders := s1.db.orders.filter (fun o2 => !(o2.id == oid)) } },
             .itemsInsertFailed)
          else
            let s2 := { s1 with db := { s1.db with order_items := s1.db.order_items ++ rows } }
            let s3 := { s2 with db :=
              { s2.db with cart := s2.db.cart.filter (fun r => !(r.user_id == uid)) } }
            (refreshCart s3, .placed oid)

/-- The order rows the `getPurchaseHistory` tool reports for a user: its
query selects that user's rows of the `orders` table. -/
def purchaseHistory (db : DB) (uid : Nat) : List OrderRow :=
  db.orders.filter (fun o2 => o2.user_id == uid)

/-! ## Tool arguments, number coercion and message rendering -/

/-- A dynamically typed numeric tool argument: absent (`undefined`), a
number, or a defined value (such as the string "three") whose `Number()`
coercion is `NaN`. -/
inductive ToolArg
  | undef
  | num (q : ℚ)
  | nonNumeric
deriving DecidableEq

/-- `Number(x)`, with `Option.none` standing for `NaN`. -/
def ToolArg.toNum : ToolArg → Option ℚ
  | .num q => some q
  | _ => Option.none

/-- JS `x || d` applied to a number: `NaN` and `0` are falsy. -/
def jsOr (x : Option ℚ) (d : ℚ) : ℚ :=
  match x with
  | Option.none => d
  | some v => if v = 0 then d else v

/-- Digits of a natural number (for message interpolation). -/
def natStr (n : Nat) : Str := Nat.toDigits 10 n

/-- Decimal rendering of an integer. -/
def intStr (i : ℤ) : Str :=
  if i < 0 then '-' :: natStr i.natAbs else natStr i.natAbs

/-- `amount.toFixed(2)`: two-decimal rendering, half away from zero (the
claims never depend on the digits, only on messages being non-empty). -/
def toFixed2 (q : ℚ) : Str :=
  let c : ℤ := ⌊q * 100 + 1/2⌋
  let a := c.natAbs
  (if c < 0 then ['-'] else []) ++ natStr (a / 100) ++ ['.'] ++
    (if a % 100 < 10 then ['0'] else []) ++ natStr (a % 100)

/-- The uniform response envelope of every tool. -/
structure ToolResponse where
  success : Bool
  message : Str
deriving DecidableEq

/-! ## The cart state accessor -/

/-- Result of `fetchLatestCartState`. -/
structure CartState where
  success : Bool
  items : List CartItemFull
  totalAmount : ℚ
  itemCount : ℤ
  error : Option Str
deriving DecidableEq

/-- `VoiceAssistant.fetchLatestCartState`: fail (without throwing) when no
user id is supplied or the select fails; otherwise return the user's joined
cart rows with `totalAmount` and `itemCount` reduced over them. -/
def fetchLatestCartState (fail : FailSpec) (db : DB) (userId : Option Nat) : CartState :=
  match userId with
  | Option.none => ⟨false, [], 0, 0, some "User not authenticated".data⟩
  | some uid =>
    if fail.fetchCart then ⟨false, [], 0, 0, some "Failed to fetch cart state".data⟩
    else
      let data := (db.cart.filter (fun r => r.user_id == uid)).map (joinRow db)
      ⟨true, data,
        data.foldl (fun t it => t + itemPrice it * (it.quantity : ℚ)) 0,
        data.foldl (fun t it => t + it.quantity) 0,
        Option.none⟩

/-- The `Your cart now has N items totaling ₹T.` sentence appended to
mutation confirmations. -/
def cartNowMsg (st : CartState) : Str :=
  " Your cart now has ".data ++ intStr st.itemCount ++ " items totaling ₹".data ++
    toFixed2 st.totalAmount ++ ".".data

/-- `${cartItem.product?.name}` (JS renders a missing join as "undefined"). -/
def itemName (it : CartItemFull) : Str :=
  match it.product with
  | some p => p.name
  | Option.none => "undefined".data

/-! ## The client tools (VoiceAssistant) -/

/-- Body of the `addItemToCart` tool, after its argument/authentication
guard.  A `null` from `findProductByName` makes the source dereference
`null.product`, whose `TypeError` the tool's `catch` turns into the generic
failure envelope. -/
def addItemBody (fail : FailSpec) (o : Oracle) (s : App) (uid : Nat) (name : Str)
    (quantity : ToolArg) : App × ToolResponse :=
  let validQuantity : ℤ := max 1 ⌊jsOr quantity.toNum 1⌋
  match findProductByName o (trimStr name) s.products with
  | Option.none => (s, ⟨false, "Failed to add item to cart.".data⟩)
  | some mr =>
    match mr.product with
    | Option.none =>
      (s, ⟨false, "I couldn\x27t find \"".data ++ name ++ "\".".data⟩)
    | some product =>
      if (product.stock_quantity : ℤ) < validQuantity then
        (s, ⟨false, "Sorry, only ".data ++ natStr product.stock_quantity ++ " ".data ++
          product.name ++ " available.".data⟩)
      else
        let s1 := addToCartCtx fail s product.id validQuantity
        let s2 := refreshCart s1
        let latest := fetchLatestCartState fail s2.db (some uid)
        if !latest.success then
          (s2, ⟨false, "Item added, but failed to get updated cart totals.".data⟩)
        else
          let note := if mr.confidence ≠ Confidence.high then
              " (I matched \"".data ++ name ++ "\" to \"".data ++ product.name ++ "\")".data
            else []
          (s2, ⟨true, "Added ".data ++ intStr validQuantity ++ " ".data ++ product.name ++
            " to your cart".data ++ note ++ ".".data ++ cartNowMsg latest⟩)

/-- The `addItemToCart` tool: validate the argument and the session, resolve
the name through the matcher, enforce the stock bound on the requested
quantity, upsert through `addToCart`, then confirm from a fresh fetch. -/
def addItemToCartTool (fail : FailSpec) (o : Oracle) (s : App) (productName : Option Str)
    (quantity : ToolArg) : App × ToolResponse :=
  if productName = Option.none ∨ productName = some [] ∨ s.user = Option.none then
    (s, ⟨false, if s.user = Option.none then "Please sign in to add items.".data
                else "Product name is required.".data⟩)
  else addItemBody fail o s (s.user.getD 0) (productName.getD []) quantity

/-- Apply the located quantity change: zero removes the row, a positive value
sets it absolutely; then confirm from a fresh fetch. -/
def updateApply (fail : FailSpec) (s : App) (uid : Nat) (cartItem : CartItemFull)
    (validQuantity : ℤ) : App × ToolResponse :=
  let pid := match cartItem.product with | some p => p.id | Option.none => 0
  let s1 := if validQuantity == 0 then removeFromCartCtx s pid
            else updateCartQuantityCtx fail s pid validQuantity
  let s2 := refreshCart s1
  let latest := fetchLatestCartState fail s2.db (some uid)
  if !latest.success then
    (s2, ⟨false, "Quantity updated, but failed to get updated cart totals.".data⟩)
  else
    let m := if validQuantity == 0 then
        "Removed ".data ++ itemName cartItem ++ " from the cart.".data
      else
        "Updated ".data ++ itemName cartItem ++ " quantity to ".data ++
          intStr validQuantity ++ ".".data
    (s2, ⟨true, m ++ cartNowMsg latest⟩)

/-- Body of the `updateCartItemQuantity` tool, after its guard: coerce the
quantity (`Math.floor(Number(quantity) || 0)`), reject negatives, locate the
item in a freshly fetched cart, enforce the stock bound, then apply. -/
def updateBody (fail : FailSpec) (o : Oracle) (s : App) (uid : Nat) (name : Str)
    (quantity : ToolArg) : App × ToolResponse :=
  let validQuantity : ℤ := ⌊jsOr quantity.toNum 0⌋
  if validQuantity < 0 then (s, ⟨false, "Quantity cannot be negative.".data⟩)
  else
    let initialCart := fetchLatestCartState fail s.db (some uid)
    if !initialCart.success then
      (s, ⟨false, "Could not check your cart to update the item.".data⟩)
    else
      match findProductByName o (trimStr name) s.products with
      | Option.none => (s, ⟨false, "Failed to update cart quantity.".data⟩)
      | some mr =>
        match mr.product with
        | Option.none =>
          (s, ⟨false, "I couldn\x27t find a product named \"".data ++ name ++ "\".".data⟩)
        | some P =>
          match initialCart.items.find? (fun it =>
              match it.product with
              | some p => p.id == P.id
              | Option.none => false) with
          | Option.none => (s, ⟨false, "\"".data ++ P.name ++ "\" is not in your cart.".data⟩)
          | some cartItem =>
            match s.products.find? (fun p =>
                match cartItem.product with
                | some cp => p.id == cp.id
                | Option.none => false) with
            | some pdb =>
              if (pdb.stock_quantity : ℤ) < validQuantity then
                (s, ⟨false, "Sorry, only ".data ++ natStr pdb.stock_quantity ++ " ".data ++
                  pdb.name ++ " available.".data⟩)
              else updateApply fail s uid cartItem validQuantity
            | Option.none => updateApply fail s uid cartItem validQuantity

/-- The `updateCartItemQuantity` tool. -/
def updateCartItemQuantityTool (fail : FailSpec) (o : Oracle) (s : App)
    (productName : Option Str) (quantity : ToolArg) : App × ToolResponse :=
  if productName = Option.none ∨ productName = some [] ∨ quantity = ToolArg.undef ∨
      s.user = Option.none then
    (s, ⟨false, if s.user = Option.none then "Please sign in to manage your cart.".data
                else "Product name and quantity are required.".data⟩)
  else updateBody fail o s (s.user.getD 0) (productName.getD []) quantity

/-- The `getCartDetails` tool (state-preserving; only its envelope is
returned). -/
def getCartDetailsTool (fail : FailSpec) (db : DB) (user : Option Nat) : ToolResponse :=
  match user with
  | Option.none => ⟨false, "Please sign in to view your cart.".data⟩
  | some uid =>
    let st := fetchLatestCartState fail db (some uid)
    if !st.success then
      ⟨false, "Failed to get cart details. Please try again.".data⟩
    else if st.items.isEmpty then
      ⟨true, "Your cart is empty. You can add items by saying \"Add [product name] to cart\".".data⟩
    else
      ⟨true, "You have ".data ++ intStr st.itemCount ++ " items in your cart totaling ₹".data ++
        toFixed2 st.totalAmount ++ ".".data⟩

/-- One entry of the `getAvailableProducts` response. -/
structure GAPItem where
  name : Str
  price : ℚ
  unit : Str
  category : Str
  description : Str
  inStock : Bool
  stockQuantity : Nat
deriving DecidableEq

/-- The `getAvailableProducts` response. -/
structure GAPResponse where
  success : Bool
  message : Str
  items : List GAPItem
  count : Nat
deriving DecidableEq

/-- `No products found[ for "term"][ in category "cat"].` -/
def noProductsMsg (term cat : Str) : Str :=
  "No products found".data ++
    (if term ≠ [] then " for \"".data ++ term ++ "\"".data else []) ++
    (if cat ≠ [] then " in category \"".data ++ cat ++ "\"".data else []) ++ ".".data

/-- `Found N products[ matching "term"][ in category "cat"].` -/
def foundProductsMsg (n : Nat) (term cat : Str) : Str :=
  "Found ".data ++ natStr n ++ " products".data ++
    (if term ≠ [] then " matching \"".data ++ term ++ "\"".data else []) ++
    (if cat ≠ [] then " in category \"".data ++ cat ++ "\"".data else []) ++ ".".data

/-- The `getAvailableProducts` tool: filter the catalog snapshot by category
substring and/or search term (name/description containment unioned with the
engine's matches), drop zero-stock items, and cap at the clamped limit. -/
def getAvailableProductsTool (o : Oracle) (products : List Product) (category searchTerm : Str)
    (limit : ToolArg) : GAPResponse :=
  let f1 := if category ≠ [] then
      products.filter (fun p =>
        match p.category with
        | some c => strContains (toLower c.name) (toLower category)
        | Option.none => false)
    else products
  let f2 := if searchTerm ≠ [] then
      let ids := (searchFn o (trimStr searchTerm) 50).map (fun r => r.1.id)
      f1.filter (fun p =>
        strContains (toLower p.name) (toLower searchTerm) ||
          (match p.description with
           | some d => strContains (toLower d) (toLower searchTerm)
           | Option.none => false) ||
          ids.contains p.id)
    else f1
  let f3 := f2.filter (fun p => decide (0 < p.stock_quantity))
  let validLimit : ℤ := min (max 1 ⌊jsOr limit.toNum 10⌋) 50
  let f4 := f3.take validLimit.toNat
  ⟨true,
    if f4.isEmpty then noProductsMsg searchTerm category
    else foundProductsMsg f4.length searchTerm category,
    f4.map (fun p =>
      ⟨p.name, p.price, p.unit,
        (match p.category with | some c => c.name | Option.none => "Uncategorized".data),
        (match p.description with | some d => d | Option.none => "No description available".data),
        decide (0 < p.stock_quantity), p.stock_quantity⟩),
    f4.length⟩

/-- Body of the `removeItemFromCart` tool, after its guard: check the cart
in a fresh fetch, resolve the name through the matcher, locate the item in
the fetched cart, remove it through `removeFromCart`, then confirm from a
second fresh fetch.  A `null` from `findProductByName` makes the source
dereference `null.product`, whose `TypeError` the tool's `catch` turns into
the generic failure envelope. -/
def removeItemBody (fail : FailSpec) (o : Oracle) (s : App) (uid : Nat) (name : Str) :
    App × ToolResponse :=
  let initialCart := fetchLatestCartState fail s.db (some uid)
  if !initialCart.success then
    (s, ⟨false, "Could not check your cart to remove the item.".data⟩)
  else
    match findProductByName o (trimStr name) s.products with
    | Option.none => (s, ⟨false, "Failed to remove item from cart.".data⟩)
    | some mr =>
      match mr.product with
      | Option.none =>
        (s, ⟨false, "I couldn\x27t find a product named \"".data ++ name ++ "\".".data⟩)
      | some P =>
        match initialCart.items.find? (fun it =>
            match it.product with
            | some p => p.id == P.id
            | Option.none => false) with
        | Option.none => (s, ⟨false, "\"".data ++ P.name ++ "\" is not in your cart.".data⟩)
        | some cartItem =>
          let pid := match cartItem.product with | some p => p.id | Option.none => 0
          let s2 := refreshCart (removeFromCartCtx s pid)
          let latest := fetchLatestCartState fail s2.db (some uid)
          if !latest.success then
            (s2, ⟨false, "Item removed, but failed to get updated cart totals.".data⟩)
          else
            (s2, ⟨true, "Removed ".data ++ itemName cartItem ++ " from your cart.".data ++
              cartNowMsg latest⟩)

/-- The `removeItemFromCart` tool. -/
def removeItemFromCartTool (fail : FailSpec) (o : Oracle) (s : App)
    (productName : Option Str) : App × ToolResponse :=
  if productName = Option.none ∨ productName = some [] ∨ s.user = Option.none then
    (s, ⟨false, if s.user = Option.none then "Please sign in to manage your cart.".data
                else "Product name is required.".data⟩)
  else removeItemBody fail o s (s.user.getD 0) (productName.getD [])

/-- The `getPurchaseHistory` tool (read-only; only its envelope is
returned).  With an `orderId` the query ends in `.single()`, which errors
unless exactly one row matches; that error is rethrown by
`if (error) throw error` and caught, as is an injected select failure
(`failFetch`, a dedicated flag because `FailSpec` covers the cart and order
writes).  `Found N order(s).` counts the rows after `.limit(limit)`; the
`created_at` ordering only permutes the page and cannot change the count,
so it is not modeled. -/
def getPurchaseHistoryTool (failFetch : Bool) (db : DB) (user : Option Nat)
    (limit : Nat) (orderId : Option Nat) : ToolResponse :=
  match user with
  | Option.none => ⟨false, "You must be signed in to view your order history.".data⟩
  | some uid =>
    if failFetch then
      ⟨false, "There was an error trying to fetch your order history.".data⟩
    else
      let rows := purchaseHistory db uid
      match orderId with
      | some oid =>
        let hits := rows.filter (fun o2 => o2.id == oid)
        if hits.length == 1 then
          ⟨true, "Found ".data ++ natStr hits.length ++ " order(s).".data⟩
        else
          ⟨false, "There was an error trying to fetch your order history.".data⟩
      | Option.none =>
        ⟨true, "Found ".data ++ natStr (rows.take limit).length ++ " order(s).".data⟩

/-- The delivery profile read from the auth user metadata
(`getUserProfile`, which substitutes an empty string for a missing field);
`Option.none` models both a missing session and a profile-fetch error,
which the source maps to `null`. -/
structure Profile where
  full_name : Str
  phone : Str
  address : Str
deriving DecidableEq

/-- JS `x || y` on strings: the empty string is falsy. -/
def jsOrStr (a b : Str) : Str := if a.isEmpty then b else a

/-- The success message of the `placeOrder` tool. -/
def orderPlacedMsg (itemCount : ℤ) (orderTotal : ℚ) : Str :=
  "Order placed successfully! Your order of ".data ++ intStr itemCount ++
    " items totaling ₹".data ++ toFixed2 orderTotal ++
    " will be delivered to your saved address. You\x27ll receive a confirmation shortly. Your cart is now empty.".data

/-- The `placeOrder` tool: check the session, fetch the definitive cart
state, validate the delivery profile (`emailLocal` models
`user.email?.split(\x27@\x27)[0]`), then call the context `placeOrder`
workflow with the fetched items; any error the workflow rethrows (a failing
order or order-items insert, or the crash on an item without a joined
product) is caught and turned into the generic failure envelope, while the
`invalid` early return does not throw and falls through to the success
message. -/
def placeOrderTool (fail : FailSpec) (s : App) (profile : Option Profile)
    (emailLocal : Str) : App × ToolResponse :=
  match s.user with
  | Option.none =>
    (s, ⟨false, "Please sign in to place an order. You can sign in through the website by clicking the user icon in the top right.".data⟩)
  | some uid =>
    let cartBeforeOrder := fetchLatestCartState fail s.db (some uid)
    if !cartBeforeOrder.success || cartBeforeOrder.items.isEmpty then
      (s, ⟨false, "Your cart is empty. Please add some items before placing an order.".data⟩)
    else
      match profile with
      | Option.none =>
        (s, ⟨false, "Please complete your profile with a valid phone number and delivery address to place an order.".data⟩)
      | some prof =>
        if prof.phone = [] ∨ (trimStr prof.phone).length < 10 ∨ prof.address = [] ∨
            (trimStr prof.address).length < 10 then
          (s, ⟨false, "Please complete your profile with a valid phone number and delivery address to place an order.".data⟩)
        else
          let customerName := jsOrStr (trimStr prof.full_name)
            (jsOrStr emailLocal "Customer".data)
          match placeOrderCtx fail s (trimStr prof.address) customerName
              (trimStr prof.phone) cartBeforeOrder.items with
          | (s1, POResult.invalid) =>
            (s1, ⟨true, orderPlacedMsg cartBeforeOrder.itemCount cartBeforeOrder.totalAmount⟩)
          | (s1, POResult.placed _) =>
            (s1, ⟨true, orderPlacedMsg cartBeforeOrder.itemCount cartBeforeOrder.totalAmount⟩)
          | (s1, POResult.orderInsertFailed) =>
            (s1, ⟨false, "An error occurred while placing your order. Please try again.".data⟩)
          | (s1, POResult.crashed) =>
            (s1, ⟨false, "An error occurred while placing your order. Please try again.".data⟩)
          | (s1, POResult.itemsInsertFailed) =>
            (s1, ⟨false, "An error occurred while placing your order. Please try again.".data⟩)

/-- The `getUserStatus` tool (read-only; only its envelope is returned):
report sign-in state, freshly fetched cart totals and whether the profile
is complete; every reachable path returns `success: true` (a failing cart
fetch still reports the zeroed totals, and the completeness check uses the
untrimmed field lengths). -/
def getUserStatusTool (fail : FailSpec) (db : DB) (user : Option Nat)
    (email : Str) (profile : Option Profile) : ToolResponse :=
  match user with
  | Option.none =>
    ⟨true, "You are not signed in. Please sign in to add items to cart and place orders.".data⟩
  | some uid =>
    let latestCart := fetchLatestCartState fail db (some uid)
    let isProfileComplete :=
      match profile with
      | some prof =>
        !prof.phone.isEmpty && decide (10 ≤ prof.phone.length) &&
          !prof.address.isEmpty && decide (10 ≤ prof.address.length)
      | Option.none => false
    ⟨true, "You are signed in as ".data ++ email ++ ". Your cart has ".data ++
      intStr latestCart.itemCount ++ " items totaling ₹".data ++
      toFixed2 latestCart.totalAmount ++ ". ".data ++
      (if isProfileComplete then "Your profile is complete.".data
       else "Please complete your profile to place orders.".data)⟩

/-! ## List toolbox -/

theorem find?Map (f : α → β) (p : β → Bool) (l : List α) :
    (l.map f).find? p = (l.find? (fun a => p (f a))).map f := by
  induction l with
  | nil => rfl
  | cons a t ih =>
    by_cases h : p (f a) = true
    · simp [List.find?_cons_of_pos, h]
    · rw [Bool.not_eq_true] at h
      simp only [List.map_cons]
      rw [List.find?_cons_of_neg _ (by simp [h]), List.find?_cons_of_neg _ (by simp [h]), ih]

theorem find?EqHeadFilter (p : α → Bool) (l : List α) :
    l.find? p = (l.filter p).head? := by
  induction l with
  | nil => rfl
  | cons a t ih =>
    by_cases h : p a = true
    · simp [List.find?_cons_of_pos, List.filter_cons, h]
    · rw [Bool.not_eq_true] at h
      rw [List.find?_cons_of_neg _ (by simp [h]), List.filter_cons, if_neg (by simp [h])]
      exact ih

theorem find?OfFilterSingleton (p : α → Bool) (l : List α) (x : α)
    (h : l.filter p = [x]) : l.find? p = some x := by
  rw [find?EqHeadFilter, h]; rfl

theorem filterMapComm (f : α → β) (p : β → Bool) (l : List α) :
    (l.map f).filter p = (l.filter (fun a => p (f a))).map f := by
  induction l with
  | nil => rfl
  | cons a t ih =>
    by_cases h : p (f a) = true
    · simp [List.filter_cons, h, ih]
    · rw [Bool.not_eq_true] at h
      simp [List.filter_cons, h, ih]

theorem filterFilter (p q : α → Bool) (l : List α) :
    (l.filter p).filter q = l.filter (fun a => p a && q a) := by
  induction l with
  | nil => rfl
  | cons a t ih =>
    by_cases h : p a = true
    · by_cases h2 : q a = true <;> simp [List.filter_cons, h, h2, ih]
    · simp only [Bool.not_eq_true] at h
      simp [List.filter_cons, h, ih]

theorem filterNegFilter (p : α → Bool) (l : List α) :
    (l.filter (fun x => !(p x))).filter p = [] := by
  rw [filterFilter]
  apply List.filter_eq_nil_iff.mpr
  intro a _
  cases h : p a <;> simp [h]

theorem filterCongrPointwise (p q : α → Bool) (l : List α)
    (h : ∀ a, p a = q a) : l.filter p = l.filter q := by
  induction l with
  | nil => rfl
  | cons a t ih => rw [List.filter_cons, List.filter_cons, h a, ih]

theorem find?CongrPointwise (p q : α → Bool) (l : List α)
    (h : ∀ a, p a = q a) : l.find? p = l.find? q := by
  induction l with
  | nil => rfl
  | cons a t ih =>
    by_cases hp : p a = true
    · rw [List.find?_cons_of_pos _ hp, List.find?_cons_of_pos _ (h a ▸ hp)]
    · rw [Bool.not_eq_true] at hp
      rw [List.find?_cons_of_neg _ (by simp [hp]), List.find?_cons_of_neg _ (by simp [← h a, hp]),
        ih]

theorem find?Unique (p : α → Bool) (l : List α) (x : α)
    (hx : x ∈ l) (hpx : p x = true) (hun : ∀ y ∈ l, p y = true → y = x) :
    l.find? p = some x := by
  induction l with
  | nil => cases hx
  | cons a t ih =>
    by_cases h : p a = true
    · rw [List.find?_cons_of_pos _ h]
      exact congrArg some (hun a (List.mem_cons_self a t) h)
    · rw [Bool.not_eq_true] at h
      rw [List.find?_cons_of_neg _ (by simp [h])]
      rcases List.mem_cons.mp hx with rfl | hxt
      · rw [hpx] at h; cases h
      · exact ih hxt (fun y hy hpy => hun y (List.mem_cons_of_mem a hy) hpy)

theorem foldlAddSum {M : Type} [AddCommMonoid M] (f : α → M) (l : List α) (a : M) :
    l.foldl (fun t x => t + f x) a = a + (l.map f).sum := by
  induction l generalizing a with
  | nil => simp
  | cons b t ih => simp [ih, add_assoc]

theorem memLeFoldrMax (l : List Nat) (a : Nat) (h : a ∈ l) : a ≤ l.foldr max 0 := by
  induction l with
  | nil => cases h
  | cons b t ih =>
    rcases List.mem_cons.mp h with rfl | ht
    · exact le_max_left _ _
    · exact le_trans (ih ht) (le_max_right _ _)

theorem freshOrderIdNotMem (db : DB) : ∀ r ∈ db.orders, r.id ≠ freshOrderId db := by
  intro r hr heq
  have h1 : r.id ≤ (db.orders.map (fun o2 => o2.id)).foldr max 0 :=
    memLeFoldrMax _ _ (List.mem_map_of_mem _ hr)
  unfold freshOrderId at heq
  omega

theorem strStartsWithAppend (a b : Str) : strStartsWith (a ++ b) a = true := by
  induction a with
  | nil => cases b <;> rfl
  | cons c cs ih => simp [strStartsWith, ih]

theorem strEndsWithConcat (y : Str) (c : Char) : strEndsWith (y ++ [c]) [c] = true := by
  unfold strEndsWith
  rw [List.reverse_append]
  simp [strStartsWith]

theorem dropLastConcat (l : Str) (c : Char) : (l ++ [c]).dropLast = l := by
  rw [List.dropLast_concat]

/-! ## Concrete fixtures used by witnesses and counterexamples -/

/-- A product whose name is lower-case. -/
def prodLowerApples : Product := ⟨10, "apples".data, Option.none, 120, 30, "kg".data, Option.none⟩

/-- A distinct product whose name differs only in case. -/
def prodUpperApples : Product := ⟨11, "Apples".data, Option.none, 120, 30, "kg".data, Option.none⟩

/-- A product whose name ends in a double "s". -/
def prodGlass : Product := ⟨12, "Glass".data, Option.none, 50, 10, "piece".data, Option.none⟩

/-- Milk, ₹60, stock 3. -/
def prodMilk : Product := ⟨1, "Milk".data, Option.none, 60, 3, "litre".data, Option.none⟩

/-! ## C3: exact matching -/

/-- C3 (amended): for a product P whose (lower-cased) name carries no
surrounding whitespace and is owned by no other catalog product,
`findProduct(P.name, catalog)` returns P with confidence `exact` via the
first (case-insensitive equality) strategy, before any later strategy — for
every fuzzy engine. -/
theorem c3_exact_match (o : Oracle) (products : List Product) (P : Product)
    (hne : (trimStr P.name).isEmpty = false)
    (htrim : trimStr (toLower P.name) = toLower P.name)
    (hmem : P ∈ products)
    (huniq : ∀ Q ∈ products, toLower Q.name = toLower P.name → Q = P) :
    findProduct o P.name products = ⟨some P, Confidence.exact, [], .exactMatch⟩ := by
  have hnm : P.name.isEmpty = false := by
    cases h : P.name with
    | nil => rw [h] at hne; exact absurd hne (by decide)
    | cons a t => rfl
  have hfind : products.find? (fun p => toLower p.name == trimStr (toLower P.name)) = some P := by
    rw [htrim]
    exact find?Unique _ _ _ hmem (by simp)
      (fun y hy hpy => huniq y hy (by simpa using hpy))
  unfold findProduct
  simp only [hnm, hne, Bool.or_self, Bool.false_eq_true, if_false, hfind]

/-- C3 witness: a concrete catalog and product satisfying the hypotheses. -/
theorem c3_exact_match_witness :
    prodUpperApples ∈ [prodUpperApples] ∧
      findProduct oracle0 prodUpperApples.name [prodUpperApples] =
        ⟨some prodUpperApples, Confidence.exact, [], .exactMatch⟩ :=
  ⟨by decide,
    c3_exact_match oracle0 [prodUpperApples] prodUpperApples (by decide) (by decide)
      (by decide) (by decide)⟩

/-- C3 counterexample: with two distinct products whose names differ only in
case, `findProduct` on the second product's name returns the *first* product
(still with confidence `exact`), so it does not return P itself. -/
theorem c3_counterexample :
    prodUpperApples ∈ [prodLowerApples, prodUpperApples] ∧
    prodLowerApples ≠ prodUpperApples ∧
    (findProduct oracle0 prodUpperApples.name [prodLowerApples, prodUpperApples]).product =
      some prodLowerApples ∧
    (findProduct oracle0 prodUpperApples.name [prodLowerApples, prodUpperApples]).product ≠
      some prodUpperApples := by decide

/-! ## C4: empty and whitespace-only queries -/

/-- C4: for every catalog and every fuzzy engine, an empty or
whitespace-only query yields a null product, confidence `none` and an empty
alternatives list (the function is total, so no error is raised). -/
theorem c4_empty_query (o : Oracle) (products : List Product) (q : Str)
    (h : trimStr q = []) :
    findProduct o q products = ⟨Option.none, Confidence.none, [], .emptyQuery⟩ := by
  unfold findProduct
  rw [h]
  simp

/-- C4 witness: the empty and the whitespace-only query on a non-trivial
catalog. -/
theorem c4_empty_query_witness :
    trimStr [' '] = [] ∧
      findProduct oracle0 [' '] [prodLowerApples] =
        ⟨Option.none, Confidence.none, [], .emptyQuery⟩ ∧
      findProduct oracle0 [] [prodLowerApples] =
        ⟨Option.none, Confidence.none, [], .emptyQuery⟩ :=
  ⟨by decide, c4_empty_query oracle0 [prodLowerApples] [' '] (by decide),
    c4_empty_query oracle0 [prodLowerApples] [] (by decide)⟩

/-! ## C5: singular/plural normalization -/

/-- C5 (amended): for a clean-named product P (no surrounding whitespace,
lower-cased name owned by no other product) whose name ends in "s" but not
in "ss", and whose plural/singular alternate form is owned by no product,
both `findProduct(P.name + "s")` and `findProduct(P.name minus the trailing
"s")` resolve to P with confidence `exact` via the singular/plural
strategy — for every fuzzy engine. -/
theorem c5_singular_plural (o : Oracle) (products : List Product) (P : Product)
    (hmem : P ∈ products)
    (hdup : ∀ Q ∈ products, toLower Q.name = toLower P.name → Q = P)
    (hplus : ∀ Q ∈ products, toLower Q.name ≠ toLower P.name ++ ['s'])
    (h1 : (trimStr (P.name ++ ['s'])).isEmpty = false)
    (h2 : trimStr (toLower (P.name ++ ['s'])) = toLower P.name ++ ['s']) :
    findProduct o (P.name ++ ['s']) products =
      ⟨some P, Confidence.exact, [], .singularPluralMatch⟩ ∧
    (strEndsWith P.name ['s'] = true →
      strEndsWith (trimStr (toLower P.name.dropLast)) ['s'] = false →
      (∀ Q ∈ products, toLower Q.name ≠ trimStr (toLower P.name.dropLast)) →
      (trimStr P.name.dropLast).isEmpty = false →
      trimStr (toLower P.name.dropLast) ++ ['s'] = toLower P.name →
      findProduct o P.name.dropLast products =
        ⟨some P, Confidence.exact, [], .singularPluralMatch⟩) := by
  constructor
  · have hg1 : (P.name ++ ['s']).isEmpty = false := by cases P.name <;> rfl
    have hs1 : products.find?
        (fun p => toLower p.name == trimStr (toLower (P.name ++ ['s']))) = Option.none := by
      rw [h2]
      exact List.find?_eq_none.mpr (fun x hx => by simpa using hplus x hx)
    have hends1 : strEndsWith (trimStr (toLower (P.name ++ ['s']))) ['s'] = true := by
      rw [h2]; exact strEndsWithConcat _ _
    have hdrop : (trimStr (toLower (P.name ++ ['s']))).dropLast = toLower P.name := by
      rw [h2]; exact dropLastConcat _ _
    have hs2 : products.find? (fun p =>
        toLower p.name == (trimStr (toLower (P.name ++ ['s']))).dropLast ||
          toLower p.name == trimStr (toLower (P.name ++ ['s']))) = some P := by
      apply find?Unique _ _ _ hmem
      · rw [hdrop]; simp
      · intro y hy hpy
        rw [hdrop, h2] at hpy
        rcases Bool.or_eq_true_iff.mp hpy with hl | hr
        · exact hdup y hy (by simpa using hl)
        · exact absurd (by simpa using hr) (hplus y hy)
    unfold findProduct
    simp only [hg1, h1, Bool.or_self, Bool.false_eq_true, if_false, hs1, hends1, if_true,
      reduceCtorEq, hs2]
  · intro _hends hnotss hminus h5 h6
    have hg2 : P.name.dropLast.isEmpty = false := by
      cases h : P.name.dropLast with
      | nil => rw [h] at h5; exact absurd h5 (by decide)
      | cons a t => rfl
    have hs1 : products.find?
        (fun p => toLower p.name == trimStr (toLower P.name.dropLast)) = Option.none :=
      List.find?_eq_none.mpr (fun x hx => by simpa using hminus x hx)
    have hs2 : products.find? (fun p =>
        toLower p.name == trimStr (toLower P.name.dropLast) ||
          toLower p.name == trimStr (toLower P.name.dropLast) ++ ['s']) = some P := by
      apply find?Unique _ _ _ hmem
      · rw [h6]; simp
      · intro y hy hpy
        rcases Bool.or_eq_true_iff.mp hpy with hl | hr
        · exact absurd (by simpa using hl) (hminus y hy)
        · exact hdup y hy (by rw [h6] at hr; simpa using hr)
    unfold findProduct
    simp only [hg2, h5, Bool.or_self, Bool.false_eq_true, if_false, hs1, hnotss,
      Bool.false_eq_true, if_false, hs2]

/-- C5 witness: the plural half applies to the non-"s"-ending name "Milk"
("Milks" resolves to Milk), and for "Apples" both the added-"s" query
"Appless" and the removed-"s" query "Apple" resolve with confidence
`exact`. -/
theorem c5_singular_plural_witness :
    prodMilk ∈ [prodMilk] ∧
      findProduct oracle0 (prodMilk.name ++ ['s']) [prodMilk] =
        ⟨some prodMilk, Confidence.exact, [], .singularPluralMatch⟩ ∧
      findProduct oracle0 (prodUpperApples.name ++ ['s']) [prodUpperApples] =
        ⟨some prodUpperApples, Confidence.exact, [], .singularPluralMatch⟩ ∧
      findProduct oracle0 prodUpperApples.name.dropLast [prodUpperApples] =
        ⟨some prodUpperApples, Confidence.exact, [], .singularPluralMatch⟩ := by
  refine ⟨by decide, ?_, ?_, ?_⟩
  · exact (c5_singular_plural oracle0 [prodMilk] prodMilk (by decide) (by decide) (by decide)
      (by decide) (by decide)).1
  · exact (c5_singular_plural oracle0 [prodUpperApples] prodUpperApples (by decide) (by decide)
      (by decide) (by decide) (by decide)).1
  · exact (c5_singular_plural oracle0 [prodUpperApples] prodUpperApples (by decide) (by decide)
      (by decide) (by decide) (by decide)).2 (by decide) (by decide) (by decide) (by decide)
      (by decide)

/-- C5 counterexample: for the product "Glass" (name ending in "ss"), no
distinct product owns the trailing-"s"-removed form "Glas", yet
`findProduct("Glas")` does not come back with confidence `exact` (the
singular/plural strategy compares "gla"/"glas" against "glass" and misses;
the query falls through to a non-exact strategy). -/
theorem c5_counterexample :
    prodGlass ∈ [prodGlass] ∧
    (∀ Q ∈ [prodGlass], toLower Q.name ≠ trimStr (toLower prodGlass.name.dropLast)) ∧
    strEndsWith prodGlass.name ['s'] = true ∧
    (findProduct oracle0 prodGlass.name.dropLast [prodGlass]).product = some prodGlass ∧
    (findProduct oracle0 prodGlass.name.dropLast [prodGlass]).confidence ≠ Confidence.exact := by
  decide

/-! ## Further fixtures: a small store -/

/-- A database in which user 7 has 2 Apples (₹120) and 1 Milk (₹60). -/
def dbSample : DB :=
  ⟨[prodMilk, prodLowerApples], [⟨1, 7, 10, 2⟩, ⟨2, 7, 1, 1⟩], [], []⟩

/-- The in-memory state corresponding to `dbSample` with user 7 signed in. -/
def appSample : App :=
  refreshCart ⟨dbSample, some 7, [prodMilk, prodLowerApples], []⟩

/-- `refreshCart` touches only the in-memory mirror. -/
theorem refreshCart_db (s : App) : (refreshCart s).db = s.db := by
  unfold refreshCart; cases h : s.user <;> simp [h]

/-- `refreshCart` keeps the session. -/
theorem refreshCart_user (s : App) : (refreshCart s).user = s.user := by
  unfold refreshCart; cases h : s.user <;> simp [h]

/-- `refreshCart` keeps the catalog snapshot. -/
theorem refreshCart_products (s : App) : (refreshCart s).products = s.products := by
  unfold refreshCart; cases h : s.user <;> simp [h]

/-! ## C6: the cart state accessor -/

/-- C6: `fetchLatestCartState` returns `totalAmount` equal to the sum of
price × quantity over the fetched items and `itemCount` equal to the sum of
quantities; a missing user id or a failing fetch yields the failure
indicator `success: false` with empty items and zero totals (the function is
total: nothing is thrown). -/
theorem c6_fetchLatestCartState :
    (∀ (fail : FailSpec) (db : DB),
        fetchLatestCartState fail db Option.none =
          ⟨false, [], 0, 0, some "User not authenticated".data⟩) ∧
    (∀ (fail : FailSpec) (db : DB) (uid : Nat), fail.fetchCart = true →
        fetchLatestCartState fail db (some uid) =
          ⟨false, [], 0, 0, some "Failed to fetch cart state".data⟩) ∧
    (∀ (fail : FailSpec) (db : DB) (uid : Nat), fail.fetchCart = false →
        (fetchLatestCartState fail db (some uid)).success = true ∧
        (fetchLatestCartState fail db (some uid)).totalAmount =
          ((fetchLatestCartState fail db (some uid)).items.map
            (fun it => itemPrice it * (it.quantity : ℚ))).sum ∧
        (fetchLatestCartState fail db (some uid)).itemCount =
          ((fetchLatestCartState fail db (some uid)).items.map (fun it => it.quantity)).sum) := by
  refine ⟨fun fail db => rfl, fun fail db uid h => by simp [fetchLatestCartState, h],
    fun fail db uid h => ?_⟩
  simp [fetchLatestCartState, h, foldlAddSum]

/-- C6 witness: on the sample store, the accessor reports ₹300 across 3
quantity units for user 7, and the failure branches return the indicator. -/
theorem c6_fetchLatestCartState_witness :
    noFail.fetchCart = false ∧
    (fetchLatestCartState noFail dbSample (some 7)).success = true ∧
    (fetchLatestCartState noFail dbSample (some 7)).totalAmount =
      ((fetchLatestCartState noFail dbSample (some 7)).items.map
        (fun it => itemPrice it * (it.quantity : ℚ))).sum ∧
    (fetchLatestCartState noFail dbSample (some 7)).itemCount =
      ((fetchLatestCartState noFail dbSample (some 7)).items.map (fun it => it.quantity)).sum ∧
    fetchLatestCartState noFail dbSample Option.none =
      ⟨false, [], 0, 0, some "User not authenticated".data⟩ :=
  have h := c6_fetchLatestCartState
  ⟨rfl, (h.2.2 noFail dbSample 7 rfl).1, (h.2.2 noFail dbSample 7 rfl).2.1,
    (h.2.2 noFail dbSample 7 rfl).2.2, h.1 noFail dbSample⟩

/-! ## C2: order total and frozen order items -/

/-- C2: for every non-empty item list (with joined products), the placed
order's `total_amount` is recomputed as the sum over the passed items of
price × quantity, and one order-item row per item is inserted capturing the
product id, the quantity, and the product's current price. -/
theorem c2_placeOrder_total (fail : FailSpec) (s : App) (uid : Nat) (addr nm ph : Str)
    (items : List CartItemFull)
    (hu : s.user = some uid)
    (hne : items ≠ [])
    (hprod : ∀ it ∈ items, it.product.isSome)
    (hfo : fail.insertOrder = false)
    (hfi : fail.insertOrderItems = false) :
    (placeOrderCtx fail s addr nm ph items).2 = .placed (freshOrderId s.db) ∧
    (placeOrderCtx fail s addr nm ph items).1.db.orders =
      s.db.orders ++ [⟨freshOrderId s.db, uid,
        (items.map (fun it => itemPrice it * (it.quantity : ℚ))).sum, addr, nm, ph,
        "Pending".data⟩] ∧
    (placeOrderCtx fail s addr nm ph items).1.db.order_items =
      s.db.order_items ++ items.map (fun it =>
        OrderItemRow.mk (freshOrderId s.db)
          (match it.product with | some p => p.id | Option.none => 0)
          it.quantity (itemPrice it)) := by
  have hie : items.isEmpty = false := by
    cases items with
    | nil => exact absurd rfl hne
    | cons a t => rfl
  have hany : items.any (fun it => it.product.isNone) = false := by
    rw [List.any_eq_false]
    intro x hx
    have h := hprod x hx
    cases hp : x.product with
    | none => rw [hp] at h; cases h
    | some p => simp [hp]
  unfold placeOrderCtx
  rw [hu]
  simp only [hie, Bool.false_eq_true, if_false, hfo, hany, hfi, foldlAddSum, zero_add,
    refreshCart_db]
  exact ⟨trivial, trivial, trivial⟩

/-- C2 witness: the cart [2 × Apples ₹120, 1 × Milk ₹60] places an order of
total 300 with two frozen order-item rows. -/
theorem c2_placeOrder_total_witness :
    appSample.user = some 7 ∧
    (placeOrderCtx noFail appSample "12 Main Street, Pune".data "Asha".data
        "9876543210".data appSample.cartItems).2 = .placed 1 ∧
    (placeOrderCtx noFail appSample "12 Main Street, Pune".data "Asha".data
        "9876543210".data appSample.cartItems).1.db.orders =
      [⟨1, 7, 300, "12 Main Street, Pune".data, "Asha".data, "9876543210".data,
        "Pending".data⟩] := by
  have h := c2_placeOrder_total noFail appSample 7 "12 Main Street, Pune".data "Asha".data
    "9876543210".data appSample.cartItems (by decide) (by decide) (by decide) rfl rfl
  refine ⟨by decide, by rw [h.1]; rfl, ?_⟩
  rw [h.2.1]
  show ([] : List OrderRow) ++ _ = _
  norm_num [appSample, dbSample, refreshCart, joinRow, itemPrice, prodMilk, prodLowerApples,
    freshOrderId]

/-! ## C1: compensating rollback of the order row -/

/-- C1: if the order-item insert fails after the order insert succeeded, the
workflow deletes the order row it created and signals failure: the orders
and order-items tables are left exactly as before the call, and a subsequent
`getPurchaseHistory` for the user cannot list the rolled-back order id. -/
theorem c1_placeOrder_rollback (fail : FailSpec) (s : App) (uid : Nat) (addr nm ph : Str)
    (items : List CartItemFull)
    (hu : s.user = some uid)
    (hne : items ≠ [])
    (hprod : ∀ it ∈ items, it.product.isSome)
    (hfo : fail.insertOrder = false)
    (hfi : fail.insertOrderItems = true) :
    (placeOrderCtx fail s addr nm ph items).2 = .itemsInsertFailed ∧
    (placeOrderCtx fail s addr nm ph items).1.db.orders = s.db.orders ∧
    (placeOrderCtx fail s addr nm ph items).1.db.order_items = s.db.order_items ∧
    purchaseHistory (placeOrderCtx fail s addr nm ph items).1.db uid =
      purchaseHistory s.db uid ∧
    ∀ o2 ∈ purchaseHistory (placeOrderCtx fail s addr nm ph items).1.db uid,
      o2.id ≠ freshOrderId s.db := by
  have hie : items.isEmpty = false := by
    cases items with
    | nil => exact absurd rfl hne
    | cons a t => rfl
  have hany : items.any (fun it => it.product.isNone) = false := by
    rw [List.any_eq_false]
    intro x hx
    have h := hprod x hx
    cases hp : x.product with
    | none => rw [hp] at h; cases h
    | some p => simp [hp]
  have horders : ((s.db.orders ++ [(⟨freshOrderId s.db, uid,
      items.foldl (fun t it => t + itemPrice it * (it.quantity : ℚ)) 0, addr, nm, ph,
      "Pending".data⟩ : OrderRow)]).filter
        (fun o2 => !(o2.id == freshOrderId s.db))) = s.db.orders := by
    rw [List.filter_append]
    have h1 : (([(⟨freshOrderId s.db, uid,
        items.foldl (fun t it => t + itemPrice it * (it.quantity : ℚ)) 0, addr, nm, ph,
        "Pending".data⟩ : OrderRow)]).filter (fun o2 => !(o2.id == freshOrderId s.db))) = [] := by
      simp [List.filter_cons]
    have h2 : s.db.orders.filter (fun o2 => !(o2.id == freshOrderId s.db)) = s.db.orders :=
      List.filter_eq_self.mpr (fun a ha => by
        simp [freshOrderIdNotMem s.db a ha])
    rw [h1, h2, List.append_nil]
  refine ?_
  unfold placeOrderCtx
  rw [hu]
  simp only [hie, Bool.false_eq_true, if_false, hfo, hany, hfi, if_true, horders]
  refine ⟨trivial, trivial, trivial, trivial, ?_⟩
  intro o2 ho2
  exact freshOrderIdNotMem s.db o2 (List.mem_of_mem_filter ho2)

/-- C1 witness: with the order-items insert forced to fail on the sample
store, the call reports the failure and the user's purchase history is
untouched. -/
theorem c1_placeOrder_rollback_witness :
    appSample.user = some 7 ∧
    (placeOrderCtx ⟨false, false, true, false, false⟩ appSample "12 Main Street, Pune".data
        "Asha".data "9876543210".data appSample.cartItems).2 = .itemsInsertFailed ∧
    purchaseHistory (placeOrderCtx ⟨false, false, true, false, false⟩ appSample
        "12 Main Street, Pune".data "Asha".data "9876543210".data
        appSample.cartItems).1.db 7 = purchaseHistory appSample.db 7 :=
  have h := c1_placeOrder_rollback ⟨false, false, true, false, false⟩ appSample 7
    "12 Main Street, Pune".data "Asha".data "9876543210".data appSample.cartItems
    (by decide) (by decide) (by decide) rfl rfl
  ⟨by decide, h.1, h.2.2.2.1⟩

/-! ## C7: uniform failure envelopes at the tool boundary -/

theorem neNilOfLeft {a b : Str} (h : a ≠ []) : a ++ b ≠ [] :=
  fun he => h (List.append_eq_nil.mp he).1

theorem cartNowNeNil (st : CartState) : cartNowMsg st ≠ [] := by
  unfold cartNowMsg
  repeat apply neNilOfLeft
  decide

theorem noProductsMsgNeNil (t c : Str) : noProductsMsg t c ≠ [] := by
  unfold noProductsMsg
  repeat apply neNilOfLeft
  decide

theorem foundProductsMsgNeNil (n : Nat) (t c : Str) : foundProductsMsg n t c ≠ [] := by
  unfold foundProductsMsg
  repeat apply neNilOfLeft
  decide

/-- Envelope discipline of `addItemToCart` past its guard: non-empty message
always, and a failing cart fetch can never be reported as success. -/
theorem addItemBody_envelope (fail : FailSpec) (o : Oracle) (s : App) (uid : Nat) (name : Str)
    (q : ToolArg) :
    (addItemBody fail o s uid name q).2.message ≠ [] ∧
    (fail.fetchCart = true → (addItemBody fail o s uid name q).2.success = false) := by
  unfold addItemBody
  dsimp only
  split
  · exact ⟨by dsimp only; decide, fun _ => rfl⟩
  · split
    · refine ⟨?_, fun _ => rfl⟩
      dsimp only
      repeat apply neNilOfLeft
      decide
    · split
      · refine ⟨?_, fun _ => rfl⟩
        dsimp only
        repeat apply neNilOfLeft
        decide
      · split
        · exact ⟨by dsimp only; decide, fun _ => rfl⟩
        · rename_i hlatest
          refine ⟨?_, fun hf => absurd ?_ hlatest⟩
          · dsimp only
            repeat apply neNilOfLeft
            decide
          · simp [fetchLatestCartState, hf]

/-- Envelope discipline of `updateApply`. -/
theorem updateApply_envelope (fail : FailSpec) (s : App) (uid : Nat) (cartItem : CartItemFull)
    (v : ℤ) :
    (updateApply fail s uid cartItem v).2.message ≠ [] ∧
    (fail.fetchCart = true → (updateApply fail s uid cartItem v).2.success = false) := by
  unfold updateApply
  dsimp only
  split
  · split
    · exact ⟨by dsimp only; decide, fun _ => rfl⟩
    · rename_i hlatest
      refine ⟨?_, fun hf => absurd ?_ hlatest⟩
      · dsimp only
        repeat apply neNilOfLeft
        decide
      · simp [fetchLatestCartState, hf]
  · split
    · exact ⟨by dsimp only; decide, fun _ => rfl⟩
    · rename_i hlatest
      refine ⟨?_, fun hf => absurd ?_ hlatest⟩
      · dsimp only
        repeat apply neNilOfLeft
        decide
      · simp [fetchLatestCartState, hf]

/-- Envelope discipline of `updateCartItemQuantity` past its guard. -/
theorem updateBody_envelope (fail : FailSpec) (o : Oracle) (s : App) (uid : Nat) (name : Str)
    (q : ToolArg) :
    (updateBody fail o s uid name q).2.message ≠ [] ∧
    (fail.fetchCart = true → (updateBody fail o s uid name q).2.success = false) := by
  unfold updateBody
  dsimp only
  split
  · exact ⟨by dsimp only; decide, fun _ => rfl⟩
  · split
    · exact ⟨by dsimp only; decide, fun _ => rfl⟩
    · rename_i hinit
      have hfc : fail.fetchCart = false := by
        by_contra hc
        rw [Bool.not_eq_false] at hc
        exact hinit (by simp [fetchLatestCartState, hc])
      split
      · exact ⟨by dsimp only; decide, fun hf => absurd hf (by simp [hfc])⟩
      · split
        · refine ⟨?_, fun hf => absurd hf (by simp [hfc])⟩
          dsimp only
          repeat apply neNilOfLeft
          decide
        · split
          · refine ⟨?_, fun hf => absurd hf (by simp [hfc])⟩
            dsimp only
            repeat apply neNilOfLeft
            decide
          · split
            · split
              · refine ⟨?_, fun hf => absurd hf (by simp [hfc])⟩
                dsimp only
                repeat apply neNilOfLeft
                decide
              · exact updateApply_envelope _ _ _ _ _
            · exact updateApply_envelope _ _ _ _ _

/-- Envelope discipline of `removeItemFromCart` past its guard. -/
theorem removeItemBody_envelope (fail : FailSpec) (o : Oracle) (s : App) (uid : Nat)
    (name : Str) :
    (removeItemBody fail o s uid name).2.message ≠ [] ∧
    (fail.fetchCart = true → (removeItemBody fail o s uid name).2.success = false) := by
  unfold removeItemBody
  dsimp only
  split
  · exact ⟨by dsimp only; decide, fun _ => rfl⟩
  · rename_i hinit
    have hfc : fail.fetchCart = false := by
      by_contra hc
      rw [Bool.not_eq_false] at hc
      exact hinit (by simp [fetchLatestCartState, hc])
    split
    · exact ⟨by dsimp only; decide, fun hf => absurd hf (by simp [hfc])⟩
    · split
      · refine ⟨?_, fun hf => absurd hf (by simp [hfc])⟩
        dsimp only
        repeat apply neNilOfLeft
        decide
      · split
        · refine ⟨?_, fun hf => absurd hf (by simp [hfc])⟩
          dsimp only
          repeat apply neNilOfLeft
          decide
        · split
          · exact ⟨by dsimp only; decide, fun hf => absurd hf (by simp [hfc])⟩
          · refine ⟨?_, fun hf => absurd hf (by simp [hfc])⟩
            dsimp only
            repeat apply neNilOfLeft
            decide

/-- Envelope discipline of `getPurchaseHistory`: non-empty message always,
and an injected select failure is reported with `success: false`. -/
theorem getPurchaseHistoryTool_envelope (failFetch : Bool) (db : DB) (user : Option Nat)
    (limit : Nat) (orderId : Option Nat) :
    (getPurchaseHistoryTool failFetch db user limit orderId).message ≠ [] ∧
    (failFetch = true →
      (getPurchaseHistoryTool failFetch db user limit orderId).success = false) := by
  unfold getPurchaseHistoryTool
  dsimp only
  split
  · exact ⟨by decide, fun _ => rfl⟩
  · split
    · exact ⟨by decide, fun _ => rfl⟩
    · rename_i hff
      split
      · split
        · refine ⟨?_, fun hf => absurd hf hff⟩
          dsimp only
          repeat apply neNilOfLeft
          decide
        · exact ⟨by dsimp only; decide, fun _ => rfl⟩
      · refine ⟨?_, fun hf => absurd hf hff⟩
        dsimp only
        repeat apply neNilOfLeft
        decide

/-- An order is `placed` only when neither order-related insert was set to
fail: the rethrown storage errors exit through the other outcomes. -/
theorem placeOrderCtx_placed_flags (fail : FailSpec) (s : App) (addr nm ph : Str)
    (items : List CartItemFull) (s1 : App) (oid : Nat)
    (h : placeOrderCtx fail s addr nm ph items = (s1, POResult.placed oid)) :
    fail.insertOrder = false ∧ fail.insertOrderItems = false := by
  unfold placeOrderCtx at h
  dsimp only at h
  split at h
  · simp at h
  · split at h
    · simp at h
    · split at h
      · simp at h
      · rename_i hio
        split at h
        · simp at h
        · split at h
          · simp at h
          · rename_i hii
            exact ⟨by simpa using hio, by simpa using hii⟩

/-- The `invalid` early return of the workflow happens only without a
session or with an empty item list. -/
theorem placeOrderCtx_invalid_cases (fail : FailSpec) (s : App) (addr nm ph : Str)
    (items : List CartItemFull) (s1 : App)
    (h : placeOrderCtx fail s addr nm ph items = (s1, POResult.invalid)) :
    s.user = Option.none ∨ items.isEmpty = true := by
  unfold placeOrderCtx at h
  dsimp only at h
  split at h
  · rename_i huser
    exact Or.inl huser
  · split at h
    · rename_i hemp
      exact Or.inr hemp
    · split at h
      · simp at h
      · split at h
        · simp at h
        · split at h
          · simp at h
          · simp at h

theorem orderPlacedMsgNeNil (i : ℤ) (q : ℚ) : orderPlacedMsg i q ≠ [] := by
  unfold orderPlacedMsg
  repeat apply neNilOfLeft
  decide

/-- Envelope discipline of the `placeOrder` tool: non-empty message always,
and each injected storage failure — the cart fetch, the order insert, and
the order-items insert whose rethrown error the catch receives after the
rollback — is reported with `success: false`. -/
theorem placeOrderTool_envelope (fail : FailSpec) (s : App) (profile : Option Profile)
    (emailLocal : Str) :
    (placeOrderTool fail s profile emailLocal).2.message ≠ [] ∧
    (fail.fetchCart = true → (placeOrderTool fail s profile emailLocal).2.success = false) ∧
    (fail.insertOrder = true → (placeOrderTool fail s profile emailLocal).2.success = false) ∧
    (fail.insertOrderItems = true →
      (placeOrderTool fail s profile emailLocal).2.success = false) := by
  unfold placeOrderTool
  dsimp only
  split
  · exact ⟨by dsimp only; decide, fun _ => rfl, fun _ => rfl, fun _ => rfl⟩
  · rename_i uid huser
    split
    · exact ⟨by dsimp only; decide, fun _ => rfl, fun _ => rfl, fun _ => rfl⟩
    · rename_i hguard
      have hfc : fail.fetchCart = false := by
        by_contra hc
        rw [Bool.not_eq_false] at hc
        exact hguard (by simp [fetchLatestCartState, hc])
      have hne : (fetchLatestCartState fail s.db (some uid)).items.isEmpty = false := by
        by_contra hc
        rw [Bool.not_eq_false] at hc
        exact hguard (by simp [hc])
      split
      · exact ⟨by dsimp only; decide, fun _ => rfl, fun _ => rfl, fun _ => rfl⟩
      · split
        · exact ⟨by dsimp only; decide, fun _ => rfl, fun _ => rfl, fun _ => rfl⟩
        · split
          · rename_i heq
            exfalso
            rcases placeOrderCtx_invalid_cases _ _ _ _ _ _ _ heq with hu | he
            · rw [huser] at hu
              exact Option.noConfusion hu
            · exact absurd he (by simp [hne])
          · rename_i heq
            obtain ⟨hio, hii⟩ := placeOrderCtx_placed_flags _ _ _ _ _ _ _ _ heq
            refine ⟨?_, fun hf => absurd hf (by simp [hfc]),
              fun hf => absurd hf (by simp [hio]), fun hf => absurd hf (by simp [hii])⟩
            dsimp only
            exact orderPlacedMsgNeNil _ _
          · exact ⟨by dsimp only; decide, fun _ => rfl, fun _ => rfl, fun _ => rfl⟩
          · exact ⟨by dsimp only; decide, fun _ => rfl, fun _ => rfl, fun _ => rfl⟩
          · exact ⟨by dsimp only; decide, fun _ => rfl, fun _ => rfl, fun _ => rfl⟩

/-- Envelope discipline of `getUserStatus`: non-empty message always; the
tool reports `success: true` on every reachable path (its catch guards calls
that cannot throw in this model, and a failing cart fetch is folded into the
zeroed totals). -/
theorem getUserStatusTool_envelope (fail : FailSpec) (db : DB) (user : Option Nat)
    (email : Str) (profile : Option Profile) :
    (getUserStatusTool fail db user email profile).message ≠ [] ∧
    (getUserStatusTool fail db user email profile).success = true := by
  unfold getUserStatusTool
  dsimp only
  split
  · exact ⟨by decide, rfl⟩
  · constructor
    · dsimp only
      repeat apply neNilOfLeft
      decide
    · rfl

/-- C7: every tool call returns the uniform envelope: a non-empty,
human-readable message on every path, and an injected storage failure is
reported with `success: false` — for the cart-reading tools the failing cart
fetch, for `getPurchaseHistory` its failing select, and for `placeOrder`
also the order and order-items inserts, whose rethrown errors its catch
receives; `getUserStatus` has no failure path and always reports
`success: true`.  The functions are total, so no exception escapes the
boundary. -/
theorem c7_tool_envelopes :
    (∀ (o : Oracle) (products : List Product) (category searchTerm : Str) (limit : ToolArg),
        (getAvailableProductsTool o products category searchTerm limit).message ≠ []) ∧
    (∀ (fail : FailSpec) (db : DB) (user : Option Nat),
        (getCartDetailsTool fail db user).message ≠ [] ∧
        (fail.fetchCart = true → (getCartDetailsTool fail db user).success = false)) ∧
    (∀ (fail : FailSpec) (o : Oracle) (s : App) (productName : Option Str) (quantity : ToolArg),
        (addItemToCartTool fail o s productName quantity).2.message ≠ [] ∧
        (fail.fetchCart = true →
          (addItemToCartTool fail o s productName quantity).2.success = false)) ∧
    (∀ (fail : FailSpec) (o : Oracle) (s : App) (productName : Option Str) (quantity : ToolArg),
        (updateCartItemQuantityTool fail o s productName quantity).2.message ≠ [] ∧
        (fail.fetchCart = true →
          (updateCartItemQuantityTool fail o s productName quantity).2.success = false)) ∧
    (∀ (fail : FailSpec) (o : Oracle) (s : App) (productName : Option Str),
        (removeItemFromCartTool fail o s productName).2.message ≠ [] ∧
        (fail.fetchCart = true →
          (removeItemFromCartTool fail o s productName).2.success = false)) ∧
    (∀ (failFetch : Bool) (db : DB) (user : Option Nat) (limit : Nat) (orderId : Option Nat),
        (getPurchaseHistoryTool failFetch db user limit orderId).message ≠ [] ∧
        (failFetch = true →
          (getPurchaseHistoryTool failFetch db user limit orderId).success = false)) ∧
    (∀ (fail : FailSpec) (s : App) (profile : Option Profile) (emailLocal : Str),
        (placeOrderTool fail s profile emailLocal).2.message ≠ [] ∧
        (fail.fetchCart = true → (placeOrderTool fail s profile emailLocal).2.success = false) ∧
        (fail.insertOrder = true → (placeOrderTool fail s profile emailLocal).2.success = false) ∧
        (fail.insertOrderItems = true →
          (placeOrderTool fail s profile emailLocal).2.success = false)) ∧
    (∀ (fail : FailSpec) (db : DB) (user : Option Nat) (email : Str) (profile : Option Profile),
        (getUserStatusTool fail db user email profile).message ≠ [] ∧
        (getUserStatusTool fail db user email profile).success = true) := by
  refine ⟨?_, ?_, ?_, ?_, ?_, ?_, ?_, ?_⟩
  · intro o products category searchTerm limit
    unfold getAvailableProductsTool
    dsimp only
    repeat' split
    all_goals first
      | exact noProductsMsgNeNil _ _
      | exact foundProductsMsgNeNil _ _ _
  · intro fail db user
    cases user with
    | none => exact ⟨by dsimp only [getCartDetailsTool]; decide, fun _ => rfl⟩
    | some uid =>
      unfold getCartDetailsTool
      dsimp only
      split
      · exact ⟨by dsimp only; decide, fun _ => rfl⟩
      · rename_i hst
        have hfc : fail.fetchCart = false := by
          by_contra hc
          rw [Bool.not_eq_false] at hc
          exact hst (by simp [fetchLatestCartState, hc])
        split
        · exact ⟨by dsimp only; decide, fun hf => absurd hf (by simp [hfc])⟩
        · refine ⟨?_, fun hf => absurd hf (by simp [hfc])⟩
          dsimp only
          repeat apply neNilOfLeft
          decide
  · intro fail o s productName quantity
    unfold addItemToCartTool
    split
    · refine ⟨?_, fun _ => rfl⟩
      dsimp only
      split <;> decide
    · exact addItemBody_envelope _ _ _ _ _ _
  · intro fail o s productName quantity
    unfold updateCartItemQuantityTool
    split
    · refine ⟨?_, fun _ => rfl⟩
      dsimp only
      split <;> decide
    · exact updateBody_envelope _ _ _ _ _ _
  · intro fail o s productName
    unfold removeItemFromCartTool
    split
    · refine ⟨?_, fun _ => rfl⟩
      dsimp only
      split <;> decide
    · exact removeItemBody_envelope _ _ _ _ _
  · intro failFetch db user limit orderId
    exact getPurchaseHistoryTool_envelope _ _ _ _ _
  · intro fail s profile emailLocal
    exact placeOrderTool_envelope _ _ _ _
  · intro fail db user email profile
    exact getUserStatusTool_envelope _ _ _ _ _

/-- C7 witness: concrete calls exercising the failure-injection hypotheses:
with the cart fetch failing, `addItemToCart` reports `success: false`; with
the order insert failing, `placeOrder` (through a valid session, nonempty
cart and complete profile) reports `success: false`; with its select
failing, `getPurchaseHistory` reports `success: false`. -/
theorem c7_tool_envelopes_witness :
    (⟨true, false, false, false, false⟩ : FailSpec).fetchCart = true ∧
    (addItemToCartTool ⟨true, false, false, false, false⟩ oracle0 appSample
      (some "Milk".data) (ToolArg.num 1)).2.success = false ∧
    (getAvailableProductsTool oracle0 [prodMilk] [] [] ToolArg.undef).message ≠ [] ∧
    (⟨false, true, false, false, false⟩ : FailSpec).insertOrder = true ∧
    (placeOrderTool ⟨false, true, false, false, false⟩ appSample
      (some ⟨"Asha".data, "9876543210".data, "12 Main Street, Pune".data⟩)
      "asha".data).2.success = false ∧
    (getPurchaseHistoryTool true dbSample (some 7) 3 Option.none).success = false ∧
    (getUserStatusTool noFail dbSample (some 7) "a@b.c".data Option.none).success = true :=
  ⟨rfl,
    (c7_tool_envelopes.2.2.1 ⟨true, false, false, false, false⟩ oracle0 appSample
      (some "Milk".data) (ToolArg.num 1)).2 rfl,
    c7_tool_envelopes.1 oracle0 [prodMilk] [] [] ToolArg.undef,
    rfl,
    (c7_tool_envelopes.2.2.2.2.2.2.1 ⟨false, true, false, false, false⟩ appSample
      (some ⟨"Asha".data, "9876543210".data, "12 Main Street, Pune".data⟩)
      "asha".data).2.2.1 rfl,
    (c7_tool_envelopes.2.2.2.2.2.1 true dbSample (some 7) 3 Option.none).2 rfl,
    (c7_tool_envelopes.2.2.2.2.2.2.2 noFail dbSample (some 7) "a@b.c".data Option.none).2⟩

/-! ## Running the cart-mutating tools -/

theorem fetchSuccessTrue (db : DB) (uid : Nat) :
    (fetchLatestCartState noFail db (some uid)).success = true := rfl

theorem fetchItemsEq (db : DB) (uid : Nat) :
    (fetchLatestCartState noFail db (some uid)).items =
      (db.cart.filter (fun r => r.user_id == uid)).map (joinRow db) := rfl

theorem predOfFilterSingleton (p : α → Bool) (l : List α) (x : α)
    (h : l.filter p = [x]) : p x = true := by
  have hx : x ∈ l.filter p := by rw [h]; exact List.mem_singleton_self x
  exact (List.mem_filter.mp hx).2

theorem refreshCartIdem (s : App) : refreshCart (refreshCart s) = refreshCart s := by
  unfold refreshCart
  cases h : s.user with
  | none => simp [h]
  | some uid => simp [h]

/-- The tool's cart-item predicate, transported along the join: a joined row
matches the resolved product id exactly when the raw row does. -/
theorem joinRowPredEq (db : DB) (P : Product)
    (hjoin : db.productsTable.find? (fun p => p.id == P.id) = some P) (r : CartRow) :
    (fun it => match it.product with
      | some p => p.id == P.id
      | Option.none => false) (joinRow db r) = (r.product_id == P.id) := by
  unfold joinRow
  dsimp only
  by_cases h : r.product_id = P.id
  · rw [h, hjoin]
  · cases hf : db.productsTable.find? (fun p => p.id == r.product_id) with
    | none => simp [beq_eq_false_iff_ne, h]
    | some X =>
      have hx : X.id = r.product_id := by simpa using List.find?_some hf
      simp only [hx]

/-- Locating the cart item of the resolved product in the freshly fetched,
joined cart: it is the (unique) raw row for that (user, product), joined. -/
theorem findCartItem (db : DB) (uid : Nat) (P : Product) (r0 : CartRow)
    (hjoin : db.productsTable.find? (fun p => p.id == P.id) = some P)
    (hrow : db.cart.filter (fun r => r.user_id == uid && r.product_id == P.id) = [r0]) :
    ((db.cart.filter (fun r => r.user_id == uid)).map (joinRow db)).find?
        (fun it => match it.product with
          | some p => p.id == P.id
          | Option.none => false) = some (joinRow db r0) ∧
    (joinRow db r0).product = some P := by
  have hpid : r0.product_id = P.id := by
    have h := predOfFilterSingleton _ _ _ hrow
    simp only [Bool.and_eq_true] at h
    simpa using h.2
  constructor
  · rw [find?Map]
    rw [find?CongrPointwise _ (fun r => r.product_id == P.id) _ (joinRowPredEq db P hjoin)]
    rw [find?EqHeadFilter, filterFilter]
    simp only [hrow]
    rfl
  · unfold joinRow
    dsimp only
    rw [hpid, hjoin]

/-- Setting the quantity commutes with selecting the (user, product) rows. -/
theorem filterMapSet (l : List CartRow) (uid pid : Nat) (q : ℤ) :
    (l.map (fun r => if r.user_id == uid && r.product_id == pid then { r with quantity := q }
        else r)).filter (fun r => r.user_id == uid && r.product_id == pid) =
      (l.filter (fun r => r.user_id == uid && r.product_id == pid)).map
        (fun r => if r.user_id == uid && r.product_id == pid then { r with quantity := q }
          else r) := by
  rw [filterMapComm]
  congr 1
  apply filterCongrPointwise
  intro r
  by_cases h : (r.user_id == uid && r.product_id == pid) = true
  · simp [h]
  · rw [Bool.not_eq_true] at h
    simp [h]

/-- One happy-path run of `updateCartItemQuantity` with a positive in-stock
quantity: the tool succeeds and the final state is the refreshed state whose
cart has the user's row for the product set to the absolute quantity. -/
theorem updateToolSetRun (o : Oracle) (s : App) (uid : Nat) (name : Str) (P : Product)
    (r0 : CartRow) (q : Nat)
    (hu : s.user = some uid)
    (hname : (trimStr name).isEmpty = false)
    (hmatch : (findProduct o (trimStr name) s.products).product = some P)
    (hjoin : s.db.productsTable.find? (fun p => p.id == P.id) = some P)
    (hrow : s.db.cart.filter (fun r => r.user_id == uid && r.product_id == P.id) = [r0])
    (hfind2 : s.products.find? (fun p => p.id == P.id) = some P)
    (h1q : 1 ≤ q)
    (hstock : q ≤ P.stock_quantity) :
    ∃ msg, updateCartItemQuantityTool noFail o s (some name) (ToolArg.num (q : ℚ)) =
      (refreshCart { s with db := { s.db with cart := s.db.cart.map (fun r =>
          if r.user_id == uid && r.product_id == P.id then { r with quantity := (q : ℤ) }
          else r) } },
       ⟨true, msg⟩) := by
  have hn0 : name ≠ [] := by
    intro h
    rw [h] at hname
    exact absurd hname (by decide)
  have hqz : (q : ℚ) ≠ 0 := by
    have : q ≠ 0 := by omega
    exact_mod_cast this
  have hvq : ⌊jsOr (ToolArg.num (q : ℚ)).toNum 0⌋ = (q : ℤ) := by
    unfold jsOr ToolArg.toNum
    dsimp only
    rw [if_neg hqz]
    exact Int.floor_natCast q
  have hjp : (joinRow s.db r0).product = some P := (findCartItem s.db uid P r0 hjoin hrow).2
  have hfind2' : s.products.find? (fun p =>
      match (joinRow s.db r0).product with
      | some cp => p.id == cp.id
      | Option.none => false) = some P := by
    rw [find?CongrPointwise _ (fun p => p.id == P.id) _ (fun p => by rw [hjp])]
    exact hfind2
  unfold updateCartItemQuantityTool
  rw [if_neg (by simp [hu, hn0])]
  rw [hu]
  try dsimp only [Option.getD]
  unfold updateBody
  try dsimp only
  rw [hvq]
  rw [if_neg (not_lt.mpr (Int.natCast_nonneg q))]
  rw [if_neg (by simp [fetchSuccessTrue])]
  unfold findProductByName
  simp only [hname, Bool.false_eq_true, if_false]
  try dsimp only
  rw [hmatch]
  try dsimp only
  rw [fetchItemsEq, (findCartItem s.db uid P r0 hjoin hrow).1]
  try dsimp only
  rw [hfind2']
  try dsimp only
  rw [if_neg (not_lt.mpr (by exact_mod_cast hstock))]
  unfold updateApply
  try dsimp only
  rw [hjp]
  try dsimp only
  have hqz2 : ((q : ℤ) == 0) = false := by
    simp only [beq_eq_false_iff_ne, Ne]
    omega
  rw [hqz2]
  simp only [Bool.false_eq_true, if_false]
  have hctx : updateCartQuantityCtx noFail s P.id (q : ℤ) =
      refreshCart { s with user := some uid, db := { s.db with cart := s.db.cart.map (fun r =>
        if r.user_id == uid && r.product_id == P.id then { r with quantity := (q : ℤ) }
        else r) } } := by
    unfold updateCartQuantityCtx
    rw [hu]
    try dsimp only
    rw [if_neg (by omega)]
    rfl
  rw [hctx, refreshCartIdem]
  rw [if_neg (by simp [fetchSuccessTrue])]
  exact ⟨_, rfl⟩

/-- One run of `updateCartItemQuantity` whose quantity coerces to 0: the
located row is removed and the tool reports a removal. -/
theorem updateToolRemoveRun (o : Oracle) (s : App) (uid : Nat) (name : Str) (P : Product)
    (r0 : CartRow)
    (hu : s.user = some uid)
    (hname : (trimStr name).isEmpty = false)
    (hmatch : (findProduct o (trimStr name) s.products).product = some P)
    (hjoin : s.db.productsTable.find? (fun p => p.id == P.id) = some P)
    (hrow : s.db.cart.filter (fun r => r.user_id == uid && r.product_id == P.id) = [r0])
    (hfind2 : s.products.find? (fun p => p.id == P.id) = some P) :
    ∃ rest, updateCartItemQuantityTool noFail o s (some name) ToolArg.nonNumeric =
      (refreshCart { s with user := some uid, db := { s.db with cart := s.db.cart.filter (fun r =>
          !(r.user_id == uid && r.product_id == P.id)) } },
       ⟨true, "Removed ".data ++ rest⟩) := by
  have hn0 : name ≠ [] := by
    intro h
    rw [h] at hname
    exact absurd hname (by decide)
  have hvq : ⌊jsOr ToolArg.nonNumeric.toNum 0⌋ = (0 : ℤ) := by
    unfold jsOr ToolArg.toNum
    dsimp only
    exact Int.floor_zero
  have hjp : (joinRow s.db r0).product = some P := (findCartItem s.db uid P r0 hjoin hrow).2
  have hfind2' : s.products.find? (fun p =>
      match (joinRow s.db r0).product with
      | some cp => p.id == cp.id
      | Option.none => false) = some P := by
    rw [find?CongrPointwise _ (fun p => p.id == P.id) _ (fun p => by rw [hjp])]
    exact hfind2
  unfold updateCartItemQuantityTool
  rw [if_neg (by simp [hu, hn0])]
  rw [hu]
  try dsimp only [Option.getD]
  unfold updateBody
  try dsimp only
  rw [hvq]
  rw [if_neg (lt_irrefl 0)]
  rw [if_neg (by simp [fetchSuccessTrue])]
  unfold findProductByName
  simp only [hname, Bool.false_eq_true, if_false]
  try dsimp only
  rw [hmatch]
  try dsimp only
  rw [fetchItemsEq, (findCartItem s.db uid P r0 hjoin hrow).1]
  try dsimp only
  rw [hfind2']
  try dsimp only
  rw [if_neg (not_lt.mpr (Int.natCast_nonneg P.stock_quantity))]
  unfold updateApply
  try dsimp only
  rw [hjp]
  try dsimp only
  simp only [beq_self_eq_true, if_true]
  have hctx : removeFromCartCtx s P.id =
      refreshCart { s with user := some uid, db := { s.db with cart := s.db.cart.filter (fun r =>
        !(r.user_id == uid && r.product_id == P.id)) } } := by
    unfold removeFromCartCtx
    rw [hu]
  rw [hctx, refreshCartIdem]
  rw [if_neg (by simp [fetchSuccessTrue])]
  simp only [List.append_assoc]
  exact ⟨_, rfl⟩

/-- One run of `addItemToCart` when the resolved product is already in the
user's cart: the tool succeeds after checking only the *requested* quantity
against stock, and the row's quantity becomes `old + requested`. -/
theorem addToolUpsertRun (o : Oracle) (s : App) (uid : Nat) (name : Str) (P : Product)
    (r0 : CartRow) (q : Nat)
    (hu : s.user = some uid)
    (hname : (trimStr name).isEmpty = false)
    (hmatch : (findProduct o (trimStr name) s.products).product = some P)
    (hmirror : s.cartItems = (s.db.cart.filter (fun r => r.user_id == uid)).map (joinRow s.db))
    (hrow : s.db.cart.filter (fun r => r.user_id == uid && r.product_id == P.id) = [r0])
    (h1q : 1 ≤ q)
    (hstock : q ≤ P.stock_quantity)
    (hq0 : 1 ≤ r0.quantity) :
    ∃ msg, addItemToCartTool noFail o s (some name) (ToolArg.num (q : ℚ)) =
      (refreshCart { s with user := some uid, db := { s.db with cart := s.db.cart.map (fun r =>
          if r.user_id == uid && r.product_id == P.id then
            { r with quantity := r0.quantity + (q : ℤ) } else r) } },
       ⟨true, msg⟩) := by
  have hn0 : name ≠ [] := by
    intro h
    rw [h] at hname
    exact absurd hname (by decide)
  have hqz : (q : ℚ) ≠ 0 := by
    have : q ≠ 0 := by omega
    exact_mod_cast this
  have hvq : max 1 ⌊jsOr (ToolArg.num (q : ℚ)).toNum 1⌋ = (q : ℤ) := by
    unfold jsOr ToolArg.toNum
    dsimp only
    rw [if_neg hqz, Int.floor_natCast]
    exact max_eq_right (by exact_mod_cast h1q)
  have hfindMirror : s.cartItems.find? (fun it => it.product_id == P.id) =
      some (joinRow s.db r0) := by
    rw [hmirror, find?Map]
    rw [find?CongrPointwise (fun a => (joinRow s.db a).product_id == P.id)
      (fun r => r.product_id == P.id) _ (fun r => rfl)]
    rw [find?EqHeadFilter, filterFilter]
    simp only [hrow]
    rfl
  unfold addItemToCartTool
  rw [if_neg (by simp [hu, hn0])]
  rw [hu]
  try dsimp only [Option.getD]
  unfold addItemBody
  try dsimp only
  rw [hvq]
  unfold findProductByName
  simp only [hname, Bool.false_eq_true, if_false]
  try dsimp only
  rw [hmatch]
  try dsimp only
  rw [if_neg (not_lt.mpr (by exact_mod_cast hstock))]
  have hctx : addToCartCtx noFail s P.id (q : ℤ) =
      refreshCart { s with user := some uid, db := { s.db with cart := s.db.cart.map (fun r =>
        if r.user_id == uid && r.product_id == P.id then
          { r with quantity := r0.quantity + (q : ℤ) } else r) } } := by
    unfold addToCartCtx
    rw [hu]
    try dsimp only
    rw [hfindMirror]
    try dsimp only
    have hjq : (joinRow s.db r0).quantity = r0.quantity := rfl
    rw [hjq]
    unfold updateCartQuantityCtx
    rw [hu]
    try dsimp only
    rw [if_neg (by omega)]
    rfl
  rw [hctx, refreshCartIdem]
  rw [if_neg (by simp [fetchSuccessTrue])]
  exact ⟨_, rfl⟩

/-! ## Fixtures for the cart-tool claims -/

/-- User 7 already has 2 Milk in the cart. -/
def dbMilk2 : DB := ⟨[prodMilk], [⟨1, 7, 1, 2⟩], [], []⟩

/-- The corresponding signed-in application state, with a fresh mirror. -/
def appMilk2 : App := refreshCart ⟨dbMilk2, some 7, [prodMilk], []⟩

/-- A signed-in state with an empty cart. -/
def appMilk0 : App := ⟨⟨[prodMilk], [], [], []⟩, some 7, [prodMilk], []⟩

/-! ## C8: absolute-set semantics of updateCartItemQuantity -/

/-- C8: `updateCartItemQuantity` sets the cart row's quantity to the given
absolute value: when the name resolves to a product P present in the user's
cart and 1 ≤ q ≤ stock, calling the tool twice in a row with the same name
and q succeeds both times and leaves exactly one cart row for that product,
with quantity q (idempotent, not additive). -/
theorem c8_update_absolute_idempotent (o : Oracle) (s : App) (uid : Nat) (name : Str)
    (P : Product) (r0 : CartRow) (q : Nat)
    (hu : s.user = some uid)
    (hname : (trimStr name).isEmpty = false)
    (hmatch : (findProduct o (trimStr name) s.products).product = some P)
    (hjoin : s.db.productsTable.find? (fun p => p.id == P.id) = some P)
    (hrow : s.db.cart.filter (fun r => r.user_id == uid && r.product_id == P.id) = [r0])
    (hfind2 : s.products.find? (fun p => p.id == P.id) = some P)
    (h1q : 1 ≤ q)
    (hstock : q ≤ P.stock_quantity) :
    (updateCartItemQuantityTool noFail o s (some name) (ToolArg.num (q : ℚ))).2.success = true ∧
    (updateCartItemQuantityTool noFail o
        (updateCartItemQuantityTool noFail o s (some name) (ToolArg.num (q : ℚ))).1
        (some name) (ToolArg.num (q : ℚ))).2.success = true ∧
    (updateCartItemQuantityTool noFail o
        (updateCartItemQuantityTool noFail o s (some name) (ToolArg.num (q : ℚ))).1
        (some name) (ToolArg.num (q : ℚ))).1.db.cart.filter
      (fun r => r.user_id == uid && r.product_id == P.id) =
      [{ r0 with quantity := (q : ℤ) }] := by
  obtain ⟨m1, e1⟩ :=
    updateToolSetRun o s uid name P r0 q hu hname hmatch hjoin hrow hfind2 h1q hstock
  set S := refreshCart { s with db := { s.db with cart := s.db.cart.map (fun r =>
    if r.user_id == uid && r.product_id == P.id then { r with quantity := (q : ℤ) }
    else r) } } with hSdef
  have hSuser : S.user = some uid := by rw [hSdef, refreshCart_user]; exact hu
  have hSprod : S.products = s.products := by rw [hSdef, refreshCart_products]
  have hStable : S.db.productsTable = s.db.productsTable := by rw [hSdef, refreshCart_db]
  have hScart : S.db.cart = s.db.cart.map (fun r =>
      if r.user_id == uid && r.product_id == P.id then { r with quantity := (q : ℤ) }
      else r) := by rw [hSdef, refreshCart_db]
  have hrow2 : S.db.cart.filter (fun r => r.user_id == uid && r.product_id == P.id) =
      [{ r0 with quantity := (q : ℤ) }] := by
    rw [hScart, filterMapSet, hrow]
    simp only [List.map_cons, List.map_nil]
    rw [if_pos (predOfFilterSingleton _ _ _ hrow)]
  obtain ⟨m2, e2⟩ :=
    updateToolSetRun o S uid name P { r0 with quantity := (q : ℤ) } q hSuser hname
      (by rw [hSprod]; exact hmatch) (by rw [hStable]; exact hjoin) hrow2
      (by rw [hSprod]; exact hfind2) h1q hstock
  refine ⟨by rw [e1], ?_, ?_⟩
  · rw [e1]
    show (updateCartItemQuantityTool noFail o S (some name) (ToolArg.num (q : ℚ))).2.success = true
    rw [e2]
  · rw [e1]
    show (updateCartItemQuantityTool noFail o S (some name)
        (ToolArg.num (q : ℚ))).1.db.cart.filter
        (fun r => r.user_id == uid && r.product_id == P.id) =
      [{ r0 with quantity := (q : ℤ) }]
    rw [e2, refreshCart_db]
    dsimp only
    rw [filterMapSet, hrow2]
    simp only [List.map_cons, List.map_nil]
    rw [if_pos (predOfFilterSingleton _ _ _ hrow)]

/-- C8 witness: with 2 Milk in the cart and stock 3, setting the quantity to
3 twice leaves exactly one Milk row at quantity 3. -/
theorem c8_update_absolute_idempotent_witness :
    appMilk2.user = some 7 ∧
    (updateCartItemQuantityTool noFail oracle0 appMilk2 (some "Milk".data)
      (ToolArg.num ((3 : ℕ) : ℚ))).2.success = true ∧
    (updateCartItemQuantityTool noFail oracle0
        (updateCartItemQuantityTool noFail oracle0 appMilk2 (some "Milk".data)
          (ToolArg.num ((3 : ℕ) : ℚ))).1
        (some "Milk".data) (ToolArg.num ((3 : ℕ) : ℚ))).1.db.cart.filter
      (fun r => r.user_id == 7 && r.product_id == prodMilk.id) =
      [⟨1, 7, 1, ((3 : ℕ) : ℤ)⟩] :=
  have h := c8_update_absolute_idempotent oracle0 appMilk2 7 "Milk".data prodMilk ⟨1, 7, 1, 2⟩ 3
    (by decide) (by decide) (by decide) (by decide) (by decide) (by decide) (by decide) (by decide)
  ⟨by decide, h.1, h.2.2⟩

/-! ## C9: additive upsert vs. per-call stock check in addItemToCart -/

/-- C9: when the resolved product is already in the cart with quantity q0, a
successful `addItemToCart` of quantity q sets the row to q0 + q while the
stock precondition compares only q against stock; consequently, from the
reachable state with an empty cart and Milk stock 3, two successive
successful calls of quantity 3 leave the Milk row at quantity 6 > 3. -/
theorem c9_addItemToCart_upsert_overshoot (o : Oracle) (s : App) (uid : Nat) (name : Str)
    (P : Product) (r0 : CartRow) (q : Nat)
    (hu : s.user = some uid)
    (hname : (trimStr name).isEmpty = false)
    (hmatch : (findProduct o (trimStr name) s.products).product = some P)
    (hmirror : s.cartItems = (s.db.cart.filter (fun r => r.user_id == uid)).map (joinRow s.db))
    (hrow : s.db.cart.filter (fun r => r.user_id == uid && r.product_id == P.id) = [r0])
    (h1q : 1 ≤ q)
    (hstock : q ≤ P.stock_quantity)
    (hq0 : 1 ≤ r0.quantity) :
    ((addItemToCartTool noFail o s (some name) (ToolArg.num (q : ℚ))).2.success = true ∧
     (addItemToCartTool noFail o s (some name) (ToolArg.num (q : ℚ))).1.db.cart.filter
        (fun r => r.user_id == uid && r.product_id == P.id) =
        [{ r0 with quantity := r0.quantity + (q : ℤ) }]) ∧
    ((addItemToCartTool noFail oracle0
        (addItemToCartTool noFail oracle0 appMilk0 (some "Milk".data)
          (ToolArg.num ((3 : ℕ) : ℚ))).1
        (some "Milk".data) (ToolArg.num ((3 : ℕ) : ℚ))).2.success = true ∧
     (addItemToCartTool noFail oracle0
        (addItemToCartTool noFail oracle0 appMilk0 (some "Milk".data)
          (ToolArg.num ((3 : ℕ) : ℚ))).1
        (some "Milk".data) (ToolArg.num ((3 : ℕ) : ℚ))).1.db.cart =
        [⟨1, 7, 1, 6⟩] ∧
     (prodMilk.stock_quantity : ℤ) < 6) := by
  obtain ⟨m, e⟩ := addToolUpsertRun o s uid name P r0 q hu hname hmatch hmirror hrow h1q hstock hq0
  refine ⟨⟨by rw [e], ?_⟩, by decide, by decide, by decide⟩
  rw [e, refreshCart_db]
  dsimp only
  rw [filterMapSet, hrow]
  simp only [List.map_cons, List.map_nil]
  rw [if_pos (predOfFilterSingleton _ _ _ hrow)]

/-- C9 witness: with 2 Milk in the cart, adding 1 Milk succeeds and leaves
the row at quantity 3. -/
theorem c9_addItemToCart_upsert_overshoot_witness :
    appMilk2.user = some 7 ∧
    (addItemToCartTool noFail oracle0 appMilk2 (some "Milk".data)
      (ToolArg.num ((1 : ℕ) : ℚ))).2.success = true ∧
    (addItemToCartTool noFail oracle0 appMilk2 (some "Milk".data)
        (ToolArg.num ((1 : ℕ) : ℚ))).1.db.cart.filter
      (fun r => r.user_id == 7 && r.product_id == prodMilk.id) =
      [{ (⟨1, 7, 1, 2⟩ : CartRow) with quantity := (⟨1, 7, 1, 2⟩ : CartRow).quantity +
        ((1 : ℕ) : ℤ) }] :=
  have h := c9_addItemToCart_upsert_overshoot oracle0 appMilk2 7 "Milk".data prodMilk
    ⟨1, 7, 1, 2⟩ 1 (by decide) (by decide) (by decide) (by decide) (by decide) (by decide)
    (by decide) (by decide)
  ⟨by decide, h.1.1, h.1.2⟩

/-! ## C10: a defined but non-numeric quantity coerces to 0 (removal) -/

/-- C10: a quantity argument that is defined but not coercible to a number
(`Number(...)` is `NaN`, e.g. the string "three") is coerced to 0, not
rejected: when the resolved product is in the cart, the tool removes the
row and returns `success: true` with a message reporting a removal. -/
theorem c10_nonNumeric_quantity_removes (o : Oracle) (s : App) (uid : Nat) (name : Str)
    (P : Product) (r0 : CartRow)
    (hu : s.user = some uid)
    (hname : (trimStr name).isEmpty = false)
    (hmatch : (findProduct o (trimStr name) s.products).product = some P)
    (hjoin : s.db.productsTable.find? (fun p => p.id == P.id) = some P)
    (hrow : s.db.cart.filter (fun r => r.user_id == uid && r.product_id == P.id) = [r0])
    (hfind2 : s.products.find? (fun p => p.id == P.id) = some P) :
    (updateCartItemQuantityTool noFail o s (some name) ToolArg.nonNumeric).2.success = true ∧
    strStartsWith (updateCartItemQuantityTool noFail o s (some name)
      ToolArg.nonNumeric).2.message ("Removed ".data) = true ∧
    (updateCartItemQuantityTool noFail o s (some name) ToolArg.nonNumeric).1.db.cart.filter
      (fun r => r.user_id == uid && r.product_id == P.id) = [] := by
  obtain ⟨rest, e⟩ := updateToolRemoveRun o s uid name P r0 hu hname hmatch hjoin hrow hfind2
  refine ⟨by rw [e], ?_, ?_⟩
  · rw [e]
    exact strStartsWithAppend _ _
  · rw [e, refreshCart_db]
    dsimp only
    exact filterNegFilter _ _

/-- C10 witness: updating Milk's quantity with a non-numeric argument
removes the Milk row and reports success. -/
theorem c10_nonNumeric_quantity_removes_witness :
    appMilk2.user = some 7 ∧
    (updateCartItemQuantityTool noFail oracle0 appMilk2 (some "Milk".data)
      ToolArg.nonNumeric).2.success = true ∧
    strStartsWith (updateCartItemQuantityTool noFail oracle0 appMilk2 (some "Milk".data)
      ToolArg.nonNumeric).2.message ("Removed ".data) = true ∧
    (updateCartItemQuantityTool noFail oracle0 appMilk2 (some "Milk".data)
        ToolArg.nonNumeric).1.db.cart.filter
      (fun r => r.user_id == 7 && r.product_id == prodMilk.id) = [] :=
  have h := c10_nonNumeric_quantity_removes oracle0 appMilk2 7 "Milk".data prodMilk ⟨1, 7, 1, 2⟩
    (by decide) (by decide) (by decide) (by decide) (by decide) (by decide)
  ⟨by decide, h.1, h.2.1, h.2.2⟩

end Grocery
